import Mathlib

/-!
# Verification of the oagf-scraper pipeline store and stage runners

A shallow embedding of the persistent pipeline store (`src/store/sqliteStore.ts`),
the local queue adapter (`src/extract/localSqliteQueueAdapter.ts`), the message
validators (`src/extract/asyncMessages.ts`), the download stage runner and the
async extraction orchestrator.  SQL tables become lists of records, SQL
statements become pure functions on those lists, the ISO-8601 timestamp strings
keep their SQLite string ordering, and side-effecting code (file writes, the
retry loop) is modelled by explicit state passing.
-/

namespace Oagf

/-- A row of the `documents` table (schema in `SqliteStore.initializeSchema`). -/
structure DocumentRow where
  docId : String
  url : String
  title : String
  year : Option Int
  month : Option String
  sourcePageUrl : String
  firstSeenAt : String
  lastSeenAt : String
  lastStatus : Option String
  sha256 : Option String
  bytes : Option Int
  contentType : Option String
  rawLocation : Option String
  extractedTextLocation : Option String
  extractedTablesLocation : Option String
  error : Option String
  etag : Option String
  lastModified : Option String
  lastCheckedAt : Option String
  lastDownloadAt : Option String
  attemptsDownload : Nat
  attemptsExtract : Nat
  updatedAt : String
deriving Repr, DecidableEq

/-- `COALESCE(@new, old)` of SQL: the fresh binding when non-null, else the stored value. -/
def coalesce {α : Type} (newVal oldVal : Option α) : Option α :=
  match newVal with
  | some v => some v
  | none => oldVal

/-- Lexicographic `≤` on character lists: SQLite's BINARY collation order (the
stored timestamps are ASCII ISO-8601 strings, on which code-point order and byte
order agree). -/
def chLe : List Char → List Char → Bool
  | [], _ => true
  | _ :: _, [] => false
  | a :: as, b :: bs =>
    if a.toNat < b.toNat then true
    else if b.toNat < a.toNat then false
    else chLe as bs

/-- Lexicographic strict `<` on character lists, the SQLite `<` on TEXT values. -/
def chLt : List Char → List Char → Bool
  | [], [] => false
  | [], _ :: _ => true
  | _ :: _, [] => false
  | a :: as, b :: bs =>
    if a.toNat < b.toNat then true
    else if b.toNat < a.toNat then false
    else chLt as bs

/-- SQLite `a <= b` on TEXT values. -/
def strLeb (a b : String) : Bool :=
  chLe a.data b.data

/-- SQLite `a < b` on TEXT values. -/
def strLtb (a b : String) : Bool :=
  chLt a.data b.data

/-- Comparison of rows by a string sort key, as used by `ORDER BY <key> ASC`. -/
def keyLe {α : Type} (k : α → String) (a b : α) : Prop :=
  strLeb (k a) (k b) = true

instance {α : Type} (k : α → String) : DecidableRel (keyLe k) :=
  fun a b => inferInstanceAs (Decidable (strLeb (k a) (k b) = true))

instance {α : Type} (k : α → String) : IsTotal α (keyLe k) :=
  ⟨fun a b => by
    unfold keyLe strLeb
    generalize (k a).data = as
    generalize (k b).data = bs
    induction as generalizing bs with
    | nil => left; rfl
    | cons a1 as ih =>
      cases bs with
      | nil => right; rfl
      | cons b1 bs =>
        simp only [chLe]
        rcases Nat.lt_trichotomy a1.toNat b1.toNat with h | h | h
        · left; simp [h]
        · have h1 : ¬ a1.toNat < b1.toNat := by omega
          have h2 : ¬ b1.toNat < a1.toNat := by omega
          simp only [h1, h2, if_false, ite_false]
          exact ih bs
        · right; simp [h]⟩

instance {α : Type} (k : α → String) : IsTrans α (keyLe k) :=
  ⟨fun x y z hab hbc => by
    unfold keyLe strLeb at hab hbc ⊢
    revert hab hbc
    generalize (k x).data = as
    generalize (k y).data = bs
    generalize (k z).data = cs
    intro hab hbc
    induction as generalizing bs cs with
    | nil => rfl
    | cons a1 as ih =>
      cases bs with
      | nil => simp [chLe] at hab
      | cons b1 bs =>
        cases cs with
        | nil => simp [chLe] at hbc
        | cons c1 cs =>
          simp only [chLe] at hab hbc ⊢
          by_cases h1 : a1.toNat < b1.toNat <;> by_cases h2 : b1.toNat < c1.toNat <;>
            simp only [h1, h2, if_true, if_false, ite_true, ite_false] at hab hbc ⊢
          · have : a1.toNat < c1.toNat := by omega
            simp [this]
          · by_cases h3 : c1.toNat < b1.toNat
            · simp [h3] at hbc
            · have : a1.toNat < c1.toNat := by omega
              simp [this]
          · by_cases h3 : b1.toNat < a1.toNat
            · simp [h3] at hab
            · have : a1.toNat < c1.toNat := by omega
              simp [this]
          · by_cases h3 : b1.toNat < a1.toNat
            · simp [h3] at hab
            · by_cases h4 : c1.toNat < b1.toNat
              · simp [h4] at hbc
              · simp only [h3, h4, if_false, ite_false] at hab hbc
                have h5 : ¬ a1.toNat < c1.toNat := by omega
                have h6 : ¬ c1.toNat < a1.toNat := by omega
                simp only [h5, h6, if_false, ite_false]
                exact ih bs cs hab hbc⟩

/-- `ORDER BY <key> ASC` on a bag of rows (SQLite leaves tie order unspecified;
a stable insertion sort is one admissible realisation). -/
def sortByKey {α : Type} (k : α → String) (l : List α) : List α :=
  l.insertionSort (keyLe k)

/-- ASCII lower-casing of one character, the folding SQLite's default `LIKE` applies. -/
def asciiLower (c : Char) : Char :=
  if 'A' ≤ c ∧ c ≤ 'Z' then Char.ofNat (c.toNat + 32) else c

/-- Boolean list prefix test used to evaluate a `LIKE 'lit%'` pattern. -/
def charsPrefix : List Char → List Char → Bool
  | [], _ => true
  | _ :: _, [] => false
  | a :: as, b :: bs => a = b && charsPrefix as bs

/-- SQLite `s LIKE 'HTTP 404%'`: the default `LIKE` is case-insensitive for
ASCII, and the sole wildcard `%` is final, so it is an ASCII-case-insensitive
prefix test against `"HTTP 404"`. -/
def likeHttp404 (s : String) : Bool :=
  charsPrefix ("HTTP 404".data.map asciiLower) (s.data.map asciiLower)

/-- The non-force `WHERE` clause of `SqliteStore.listPendingDownloads`
(src/src/store/sqliteStore.ts lines 161-178). -/
def downloadEligible (maxAttempts : Nat) (d : DocumentRow) : Bool :=
  (decide (d.lastStatus = some "discovered")
    || (decide (d.lastStatus = some "download_failed")
        && match d.error with
           | none => true
           | some e => !likeHttp404 e)
    || (decide (d.lastStatus = some "downloaded_ok")
        && (d.rawLocation.isNone || d.sha256.isNone))
    || d.lastStatus.isNone)
  && decide (d.attemptsDownload < maxAttempts)

/-- Work item shape returned by `listPendingDownloads`. -/
structure DownloadWorkItem where
  docId : String
  url : String
  title : String
  attempt : Nat
deriving Repr, DecidableEq

/-- Projection of a selected row onto a `DownloadWorkItem` (`attempt` is
`attemptsDownload + 1`). -/
def downloadItemOfRow (d : DocumentRow) : DownloadWorkItem :=
  { docId := d.docId, url := d.url, title := d.title, attempt := d.attemptsDownload + 1 }

/-- The rows selected by the non-force branch of `listPendingDownloads`:
`WHERE <eligible> ORDER BY updatedAt ASC LIMIT limit`. -/
def pendingDownloadRows (docs : List DocumentRow) (limit maxAttempts : Nat) :
    List DocumentRow :=
  (sortByKey (fun d => d.updatedAt) (docs.filter (downloadEligible maxAttempts))).take limit

/-- `SqliteStore.listPendingDownloads(limit, force, maxAttempts)`. -/
def listPendingDownloads (docs : List DocumentRow) (limit : Nat) (force : Bool)
    (maxAttempts : Nat) : List DownloadWorkItem :=
  if force then
    ((sortByKey (fun d => d.updatedAt) docs).take limit).map downloadItemOfRow
  else
    (pendingDownloadRows docs limit maxAttempts).map downloadItemOfRow

/-- Input of `upsertDiscovered` (`DocumentDiscoveredItem` in src/types). -/
structure DocumentDiscoveredItem where
  docId : String
  url : String
  title : String
  year : Option Int
  month : Option String
  sourcePageUrl : String
  discoveredAt : String
deriving Repr, DecidableEq

/-- The row a fresh discovery inserts (`INSERT ... VALUES (..., 'discovered', ...)`).
`lastSeenAt` is `item.discoveredAt || now`, where JavaScript `||` falls back on the
empty string. -/
def discoveredRow (item : DocumentDiscoveredItem) (now : String) : DocumentRow :=
  { docId := item.docId, url := item.url, title := item.title, year := item.year,
    month := item.month, sourcePageUrl := item.sourcePageUrl,
    firstSeenAt := item.discoveredAt,
    lastSeenAt := if item.discoveredAt = "" then now else item.discoveredAt,
    lastStatus := some "discovered",
    sha256 := none, bytes := none, contentType := none, rawLocation := none,
    extractedTextLocation := none, extractedTablesLocation := none, error := none,
    etag := none, lastModified := none, lastCheckedAt := none, lastDownloadAt := none,
    attemptsDownload := 0, attemptsExtract := 0, updatedAt := now }

/-- The `ON CONFLICT(docId) DO UPDATE SET` clause of `upsertDiscovered`: it sets
`url`, `title`, `year`, `month`, `sourcePageUrl`, `lastSeenAt`, `updatedAt` from
the excluded row and touches nothing else. -/
def discoveredConflictUpdate (item : DocumentDiscoveredItem) (now : String)
    (d : DocumentRow) : DocumentRow :=
  { d with
    url := item.url
    title := item.title
    year := item.year
    month := item.month
    sourcePageUrl := item.sourcePageUrl
    lastSeenAt := if item.discoveredAt = "" then now else item.discoveredAt
    updatedAt := now }

/-- `SqliteStore.upsertDiscovered` (src/src/store/sqliteStore.ts lines 70-102). -/
def upsertDiscovered (docs : List DocumentRow) (item : DocumentDiscoveredItem)
    (now : String) : List DocumentRow :=
  if docs.any fun d => d.docId = item.docId then
    docs.map fun d =>
      if d.docId = item.docId then discoveredConflictUpdate item now d else d
  else
    docs ++ [discoveredRow item now]

/-- `SqliteStore.markRemoteUnchanged`: refreshes validators and `lastCheckedAt`. -/
def markRemoteUnchanged (docs : List DocumentRow) (docId checkedAt : String)
    (etag lastModified : Option String) : List DocumentRow :=
  docs.map fun d =>
    if d.docId = docId then
      { d with
        etag := coalesce etag d.etag
        lastModified := coalesce lastModified d.lastModified
        lastCheckedAt := some checkedAt
        updatedAt := checkedAt }
    else d

/-- The per-row update of `SqliteStore.markRemoteChanged`: refreshes validators,
resets `lastStatus` to `discovered` and records the synthetic `remote_changed` error. -/
def remoteChangedUpdate (checkedAt : String) (etag lastModified : Option String)
    (d : DocumentRow) : DocumentRow :=
  { d with
    etag := coalesce etag d.etag
    lastModified := coalesce lastModified d.lastModified
    lastCheckedAt := some checkedAt
    lastStatus := some "discovered"
    error := some "remote_changed"
    updatedAt := checkedAt }

/-- `SqliteStore.markRemoteChanged` (src/src/store/sqliteStore.ts lines 254-275). -/
def markRemoteChanged (docs : List DocumentRow) (docId checkedAt : String)
    (etag lastModified : Option String) : List DocumentRow :=
  docs.map fun d => if d.docId = docId then remoteChangedUpdate checkedAt etag lastModified d else d

/-- `SqliteStore.markRawMissing`: clears the integrity fields and reopens the document. -/
def markRawMissing (docs : List DocumentRow) (docId checkedAt : String) :
    List DocumentRow :=
  docs.map fun d =>
    if d.docId = docId then
      { d with
        lastStatus := some "discovered"
        rawLocation := none
        sha256 := none
        bytes := none
        contentType := none
        error := some "missing_local_file"
        updatedAt := checkedAt }
    else d

/-- `DownloadResult` (src/types): outcome record a download worker hands to the store. -/
structure DownloadResult where
  docId : String
  url : String
  resolvedUrl : Option String
  status : String
  sha256 : Option String
  bytes : Option Int
  contentType : Option String
  rawLocation : Option String
  etag : Option String
  lastModified : Option String
  error : Option String
  attempt : Nat
  downloadedAt : String
deriving Repr, DecidableEq

/-- The status string `markDownloadResult` persists: `skipped` collapses onto
`downloaded_ok`, anything else onto `download_failed`. -/
def downloadStatusOf (r : DownloadResult) : String :=
  if r.status = "downloaded_ok" then "downloaded_ok"
  else if r.status = "skipped" then "downloaded_ok"
  else "download_failed"

/-- `SqliteStore.markDownloadResult` (src/src/store/sqliteStore.ts lines 426-467). -/
def markDownloadResult (docs : List DocumentRow) (r : DownloadResult) :
    List DocumentRow :=
  docs.map fun d =>
    if d.docId = r.docId then
      { d with
        url := r.url
        sha256 := coalesce r.sha256 d.sha256
        bytes := coalesce r.bytes d.bytes
        contentType := coalesce r.contentType d.contentType
        rawLocation := coalesce r.rawLocation d.rawLocation
        etag := coalesce r.etag d.etag
        lastModified := coalesce r.lastModified d.lastModified
        lastCheckedAt := some r.downloadedAt
        lastDownloadAt :=
          if downloadStatusOf r = "downloaded_ok" then some r.downloadedAt
          else d.lastDownloadAt
        error := r.error
        attemptsDownload :=
          if r.attempt > d.attemptsDownload then r.attempt else d.attemptsDownload + 1
        lastStatus := some (downloadStatusOf r)
        updatedAt := r.downloadedAt }
    else d

/-- Work item shape returned by `listPendingExtracts`. -/
structure ExtractWorkItem where
  docId : String
  rawLocation : String
  attempt : Nat
deriving Repr, DecidableEq

/-- The non-force `WHERE` clause of `SqliteStore.listPendingExtracts`: a local raw
file, attempts below the cap, and a status in `{downloaded_ok, extracted_failed}`
(the extra `!= 'extracted_ok'` conjunct of the SQL is kept verbatim). -/
def extractEligible (maxAttempts : Nat) (d : DocumentRow) : Bool :=
  d.rawLocation.isSome
  && decide (d.attemptsExtract < maxAttempts)
  && (decide (d.lastStatus = some "downloaded_ok")
      || decide (d.lastStatus = some "extracted_failed"))
  && !decide (d.lastStatus = some "extracted_ok")

/-- Projection of a selected row onto an `ExtractWorkItem`. -/
def extractItemOfRow (d : DocumentRow) : ExtractWorkItem :=
  { docId := d.docId, rawLocation := d.rawLocation.getD "", attempt := d.attemptsExtract + 1 }

/-- `SqliteStore.listPendingExtracts(limit, force, maxAttempts)`. -/
def listPendingExtracts (docs : List DocumentRow) (limit : Nat) (force : Bool)
    (maxAttempts : Nat) : List ExtractWorkItem :=
  if force then
    ((sortByKey (fun d => d.updatedAt) (docs.filter (fun d => d.rawLocation.isSome))).take
        limit).map extractItemOfRow
  else
    ((sortByKey (fun d => d.updatedAt) (docs.filter (extractEligible maxAttempts))).take
        limit).map extractItemOfRow

/-- `ExtractionResult` (src/types): outcome record an extraction hands to the store. -/
structure ExtractionResult where
  docId : String
  status : String
  pageCount : Option Nat
  textLocation : Option String
  tablesLocation : Option String
  error : Option String
  attempt : Nat
  extractedAt : String
deriving Repr, DecidableEq

/-- The status string `markExtractionResult` persists. -/
def extractionStatusOf (r : ExtractionResult) : String :=
  if r.status = "extracted_ok" then "extracted_ok"
  else if r.status = "skipped" then "extracted_ok"
  else "extracted_failed"

/-- `SqliteStore.markExtractionResult` (src/src/store/sqliteStore.ts lines 513-538). -/
def markExtractionResult (docs : List DocumentRow) (r : ExtractionResult) :
    List DocumentRow :=
  docs.map fun d =>
    if d.docId = r.docId then
      { d with
        extractedTextLocation := coalesce r.textLocation d.extractedTextLocation
        extractedTablesLocation := coalesce r.tablesLocation d.extractedTablesLocation
        error := r.error
        attemptsExtract :=
          if r.attempt > d.attemptsExtract then r.attempt else d.attemptsExtract + 1
        lastStatus := some (extractionStatusOf r)
        updatedAt := r.extractedAt }
    else d

/-- A row of the `extract_jobs` table. -/
structure ExtractJobRow where
  jobId : String
  runId : String
  docId : String
  rawPdfPath : String
  fileSha256 : Option String
  attempt : Nat
  submittedAt : String
  status : String
  leaseUntil : Option String
  finishedAt : Option String
  error : Option String
  resultRef : Option String
deriving Repr, DecidableEq

/-- Input of `enqueueExtractJob` (`ExtractJobRecord` in src/store/types). -/
structure ExtractJobRecord where
  jobId : String
  runId : String
  docId : String
  rawPdfPath : String
  fileSha256 : Option String
  attempt : Nat
  submittedAt : String
deriving Repr, DecidableEq

/-- The row `enqueueExtractJob` inserts: `status='queued'`, `leaseUntil=NULL`. -/
def queuedRowOf (j : ExtractJobRecord) : ExtractJobRow :=
  { jobId := j.jobId, runId := j.runId, docId := j.docId, rawPdfPath := j.rawPdfPath
    fileSha256 := j.fileSha256, attempt := j.attempt, submittedAt := j.submittedAt
    status := "queued", leaseUntil := none, finishedAt := none, error := none
    resultRef := none }

/-- `SqliteStore.enqueueExtractJob`: `INSERT ... ON CONFLICT(jobId) DO NOTHING`. -/
def enqueueExtractJob (jobs : List ExtractJobRow) (j : ExtractJobRecord) :
    List ExtractJobRow :=
  if jobs.any fun row => row.jobId = j.jobId then jobs
  else jobs ++ [queuedRowOf j]

/-- The `WHERE` clause of `claimPendingExtractJobs`: `status = 'queued' OR
(status = 'leased' AND leaseUntil IS NOT NULL AND leaseUntil < now)`. -/
def jobClaimable (now : String) (j : ExtractJobRow) : Bool :=
  decide (j.status = "queued")
    || (decide (j.status = "leased")
        && match j.leaseUntil with
           | some lu => strLtb lu now
           | none => false)

/-- Claimed job shape returned by `claimPendingExtractJobs`. -/
structure ClaimedExtractJob where
  jobId : String
  runId : String
  docId : String
  rawPdfPath : String
  fileSha256 : Option String
  attempt : Nat
  submittedAt : String
  leaseUntil : String
deriving Repr, DecidableEq

/-- Projection of a selected job row onto the claimed shape. -/
def claimedOfRow (leaseUntil : String) (j : ExtractJobRow) : ClaimedExtractJob :=
  { jobId := j.jobId, runId := j.runId, docId := j.docId, rawPdfPath := j.rawPdfPath,
    fileSha256 := j.fileSha256, attempt := j.attempt, submittedAt := j.submittedAt,
    leaseUntil := leaseUntil }

/-- `SqliteStore.claimPendingExtractJobs(limit, leaseUntil)` at clock reading `now`
(src/src/store/sqliteStore.ts lines 323-365): select the claimable rows oldest
`submittedAt` first up to `limit`, transition each selected `jobId` to `leased`
with the new `leaseUntil`, and return the claimed rows. -/
def claimSelectedRows (jobs : List ExtractJobRow) (limit : Nat) (now : String) :
    List ExtractJobRow :=
  (sortByKey (fun j => j.submittedAt) (jobs.filter (jobClaimable now))).take limit

/-- The `UPDATE ... SET status='leased', leaseUntil=@leaseUntil WHERE jobId=@jobId`
applied for every selected row inside the claim transaction. -/
def leaseSelected (jobs : List ExtractJobRow) (selIds : List String)
    (leaseUntil : String) : List ExtractJobRow :=
  jobs.map fun j =>
    if j.jobId ∈ selIds then
      { j with
        status := "leased"
        leaseUntil := some leaseUntil }
    else j

def claimPendingExtractJobs (jobs : List ExtractJobRow) (limit : Nat)
    (leaseUntil now : String) : List ExtractJobRow × List ClaimedExtractJob :=
  (leaseSelected jobs ((claimSelectedRows jobs limit now).map fun j => j.jobId) leaseUntil,
    (claimSelectedRows jobs limit now).map (claimedOfRow leaseUntil))

/-- `SqliteStore.getExtractJob`: first row with the given `jobId`. -/
def getExtractJob (jobs : List ExtractJobRow) (jobId : String) : Option ExtractJobRow :=
  jobs.find? fun j => j.jobId = jobId

/-- Input of `completeExtractJob`. -/
structure CompleteExtractJobInput where
  jobId : String
  status : String
  finishedAt : String
  error : Option String
  resultRef : Option String
deriving Repr, DecidableEq

/-- `SqliteStore.completeExtractJob`: record the terminal status of a job. -/
def completeExtractJob (jobs : List ExtractJobRow) (res : CompleteExtractJobInput) :
    List ExtractJobRow :=
  jobs.map fun j =>
    if j.jobId = res.jobId then
      { j with
        status := res.status
        finishedAt := some res.finishedAt
        error := res.error
        resultRef := res.resultRef }
    else j

/-! ## Fixtures and spec-worded predicates used by the claim theorems -/

/-- The download-eligibility predicate as the claim words it: identical to
`downloadEligible` except that the permanent-404 marker test reads
"does not start with `HTTP 404`" as a case-sensitive prefix.  Stated from the
spec's words only, to compare against the code's `downloadEligible`. -/
def specDownloadEligible (maxAttempts : Nat) (d : DocumentRow) : Bool :=
  (decide (d.lastStatus = some "discovered")
    || (decide (d.lastStatus = some "download_failed")
        && match d.error with
           | none => true
           | some e => !charsPrefix "HTTP 404".data e.data)
    || (decide (d.lastStatus = some "downloaded_ok")
        && (d.rawLocation.isNone || d.sha256.isNone))
    || d.lastStatus.isNone)
  && decide (d.attemptsDownload < maxAttempts)

/-- A base `documents` row for the concrete instances below. -/
def baseDoc : DocumentRow :=
  { docId := "d0", url := "https://example.org/d0.pdf", title := "doc"
    year := none, month := none, sourcePageUrl := "https://example.org/list"
    firstSeenAt := "2024-01-01T00:00:00.000Z", lastSeenAt := "2024-01-01T00:00:00.000Z"
    lastStatus := none, sha256 := none, bytes := none, contentType := none
    rawLocation := none, extractedTextLocation := none, extractedTablesLocation := none
    error := none, etag := none, lastModified := none, lastCheckedAt := none
    lastDownloadAt := none, attemptsDownload := 0, attemptsExtract := 0
    updatedAt := "2024-01-01T00:00:00.000Z" }

/-- A failed download whose error marker is lower-case `http 404`. -/
def lower404Doc : DocumentRow :=
  { baseDoc with
    lastStatus := some "download_failed"
    error := some "http 404"
    attemptsDownload := 1 }

/-- A freshly discovered row. -/
def discoveredDoc : DocumentRow :=
  { baseDoc with lastStatus := some "discovered" }

/-- A successfully downloaded row with both integrity fields set. -/
def downloadedOkDoc : DocumentRow :=
  { baseDoc with
    lastStatus := some "downloaded_ok"
    sha256 := some "abc"
    rawLocation := some "/raw/d0.pdf"
    attemptsDownload := 1
    updatedAt := "2024-01-02T00:00:00.000Z" }

/-- Pointwise non-decrease of both attempt counters between two row lists,
compared per table position. -/
def countersMono (pre post : List DocumentRow) : Prop :=
  ∀ i : Nat, ∀ h1 : i < pre.length, ∀ h2 : i < post.length,
    (pre.get ⟨i, h1⟩).attemptsDownload ≤ (post.get ⟨i, h2⟩).attemptsDownload
      ∧ (pre.get ⟨i, h1⟩).attemptsExtract ≤ (post.get ⟨i, h2⟩).attemptsExtract

/-- A rediscovery of `baseDoc`'s document. -/
def rediscoveredItem : DocumentDiscoveredItem :=
  { docId := "d0", url := "https://example.org/d0.pdf", title := "doc"
    year := none, month := none, sourcePageUrl := "https://example.org/list"
    discoveredAt := "2024-01-01T00:00:00.000Z" }

/-- A successful concrete download result for `baseDoc`'s document. -/
def okDownloadResult : DownloadResult :=
  { docId := "d0", url := "https://example.org/d0.pdf", resolvedUrl := none
    status := "downloaded_ok", sha256 := some "abc", bytes := some 10
    contentType := none, rawLocation := some "/raw/d0.pdf", etag := none
    lastModified := none, error := none, attempt := 1
    downloadedAt := "2024-01-03T00:00:00.000Z" }

/-- A successful concrete extraction result for `baseDoc`'s document. -/
def okExtractionResult : ExtractionResult :=
  { docId := "d0", status := "extracted_ok", pageCount := none, textLocation := none
    tablesLocation := none, error := none, attempt := 1
    extractedAt := "2024-01-04T00:00:00.000Z" }

/-- Field-level description of what the `ON CONFLICT` branch of
`upsertDiscovered` does to a matching row: `lastStatus` and every
download/extract progress field is preserved verbatim, and exactly the mutable
discovery fields are refreshed. -/
def upsertConflictFrame (item : DocumentDiscoveredItem) (nowS : String)
    (pre post : DocumentRow) : Prop :=
  post.lastStatus = pre.lastStatus
    ∧ post.firstSeenAt = pre.firstSeenAt
    ∧ post.sha256 = pre.sha256
    ∧ post.bytes = pre.bytes
    ∧ post.contentType = pre.contentType
    ∧ post.rawLocation = pre.rawLocation
    ∧ post.extractedTextLocation = pre.extractedTextLocation
    ∧ post.extractedTablesLocation = pre.extractedTablesLocation
    ∧ post.error = pre.error
    ∧ post.etag = pre.etag
    ∧ post.lastModified = pre.lastModified
    ∧ post.lastCheckedAt = pre.lastCheckedAt
    ∧ post.lastDownloadAt = pre.lastDownloadAt
    ∧ post.attemptsDownload = pre.attemptsDownload
    ∧ post.attemptsExtract = pre.attemptsExtract
    ∧ post.docId = pre.docId
    ∧ post.url = item.url
    ∧ post.title = item.title
    ∧ post.year = item.year
    ∧ post.month = item.month
    ∧ post.sourcePageUrl = item.sourcePageUrl
    ∧ post.lastSeenAt = (if item.discoveredAt = "" then nowS else item.discoveredAt)
    ∧ post.updatedAt = nowS

/-- A freshly queued extract job. -/
def queuedJob : ExtractJobRow :=
  { jobId := "j1", runId := "r1", docId := "d0", rawPdfPath := "/raw/d0.pdf"
    fileSha256 := none, attempt := 1, submittedAt := "2024-01-01T00:00:00.000Z"
    status := "queued", leaseUntil := none, finishedAt := none, error := none
    resultRef := none }

/-- Outcome fields of a successful streamed download attempt (headers + digest). -/
structure DlFields where
  resolvedUrl : Option String
  contentType : Option String
  sha256 : Option String
  bytes : Option Int
  etag : Option String
  lastModified : Option String
deriving Repr, DecidableEq

/-- What one `downloadAttempt` call produced, as observed by the runner's
per-item loop: either a response with its status code (streamed fields present
on `2xx`), or a thrown error (network failure, timeout, stream failure). -/
inductive AttemptOutcome where
  | response (statusCode : Nat) (fields : DlFields)
  | failure (message : String)
deriving Repr, DecidableEq

/-- `isRetriableStatus` of the downloader: `429` or any `5xx`. -/
def isRetriableStatus (status : Nat) : Bool :=
  decide (status = 429) || decide (status ≥ 500)

/-- The exponential backoff of the retry loop:
`min(1000 * 2^(attempt-1), 10_000)` milliseconds. -/
def backoffMs (attempt : Nat) : Nat :=
  min (1000 * 2 ^ (attempt - 1)) 10000

/-- What one pass of the per-item loop body produced: the terminal
`DownloadResult`, how many network attempts were issued from that point on, and
which backoff sleeps were performed. -/
structure ItemLoopOut where
  result : DownloadResult
  requests : Nat
  sleeps : List Nat
deriving Repr, DecidableEq

/-- The 404 terminal result literal of the runner. -/
def result404 (item : DownloadWorkItem) (resolvedUrl : Option String) (attempt : Nat)
    (downloadedAt : String) : DownloadResult :=
  { docId := item.docId, url := item.url, resolvedUrl := resolvedUrl
    status := "download_failed", sha256 := none, bytes := none, contentType := none
    rawLocation := none, etag := none, lastModified := none
    error := some "HTTP 404", attempt := attempt, downloadedAt := downloadedAt }

/-- The non-retriable/exhausted HTTP failure result literal (`HTTP <status>`). -/
def resultHttpFail (item : DownloadWorkItem) (resolvedUrl : Option String)
    (statusCode attempt : Nat) (downloadedAt : String) : DownloadResult :=
  { docId := item.docId, url := item.url, resolvedUrl := resolvedUrl
    status := "download_failed", sha256 := none, bytes := none, contentType := none
    rawLocation := none, etag := none, lastModified := none
    error := some ("HTTP " ++ toString statusCode), attempt := attempt
    downloadedAt := downloadedAt }

/-- The exhausted-exception failure result literal. -/
def resultThrown (item : DownloadWorkItem) (message : String) (attempt : Nat)
    (downloadedAt : String) : DownloadResult :=
  { docId := item.docId, url := item.url, resolvedUrl := none
    status := "download_failed", sha256 := none, bytes := none, contentType := none
    rawLocation := none, etag := none, lastModified := none
    error := some message, attempt := attempt, downloadedAt := downloadedAt }

/-- The success result literal. -/
def resultDownloadedOk (item : DownloadWorkItem) (f : DlFields) (finalPath : String)
    (attempt : Nat) (downloadedAt : String) : DownloadResult :=
  { docId := item.docId, url := item.url, resolvedUrl := f.resolvedUrl
    status := "downloaded_ok", sha256 := f.sha256, bytes := f.bytes
    contentType := f.contentType, rawLocation := some finalPath, etag := f.etag
    lastModified := f.lastModified, error := none, attempt := attempt
    downloadedAt := downloadedAt }

/-- The `Unknown download failure` fallback written when the loop never ran. -/
def resultUnknown (item : DownloadWorkItem) (maxAttempts : Nat)
    (downloadedAt : String) : DownloadResult :=
  { docId := item.docId, url := item.url, resolvedUrl := none
    status := "download_failed", sha256 := none, bytes := none, contentType := none
    rawLocation := none, etag := none, lastModified := none
    error := some "Unknown download failure", attempt := maxAttempts
    downloadedAt := downloadedAt }

/-- The per-item attempt loop of `runDownloader` (src/unnamed/part_000 lines
212-318), from attempt number `a` up to `maxAttempts`.  `oracle a` is what the
`downloadAttempt` call of attempt `a` produced; `nowAt a` is the clock reading
when attempt `a` concluded.  Mirrors the source's branch order: 404 first, then
other `>= 400` codes (retriable `429`/`5xx` sleep and continue when attempts
remain), then success; a thrown error retries under the same backoff policy
unless attempts are exhausted. -/
def runItemAttemptLoop (oracle : Nat → AttemptOutcome) (nowAt : Nat → String)
    (maxAttempts : Nat) (item : DownloadWorkItem) (finalPath : String) (a : Nat) :
    ItemLoopOut :=
  if _hstop : maxAttempts < a then
    { result := resultUnknown item maxAttempts (nowAt a), requests := 0, sleeps := [] }
  else
    match oracle a with
    | .failure msg =>
      if hlast : maxAttempts ≤ a then
        { result := resultThrown item msg a (nowAt a), requests := 1, sleeps := [] }
      else
        let rest := runItemAttemptLoop oracle nowAt maxAttempts item finalPath (a + 1)
        { result := rest.result, requests := rest.requests + 1
          sleeps := backoffMs a :: rest.sleeps }
    | .response code f =>
      if code = 404 then
        { result := result404 item f.resolvedUrl a (nowAt a), requests := 1, sleeps := [] }
      else if 400 ≤ code then
        if hterm : isRetriableStatus code = false ∨ maxAttempts ≤ a then
          { result := resultHttpFail item f.resolvedUrl code a (nowAt a)
            requests := 1, sleeps := [] }
        else
          let rest := runItemAttemptLoop oracle nowAt maxAttempts item finalPath (a + 1)
          { result := rest.result, requests := rest.requests + 1
            sleeps := backoffMs a :: rest.sleeps }
      else
        { result := resultDownloadedOk item f finalPath a (nowAt a)
          requests := 1, sleeps := [] }
termination_by maxAttempts + 1 - a
decreasing_by
  all_goals omega

/-! ## SHA-256 (`crypto.createHash("sha256")`), needed for `createExtractJobId`
and the download content digest.  Machine words are `Nat` reduced mod `2^32`. -/

def mask32 (x : Nat) : Nat := x % 4294967296

def rotr32 (n x : Nat) : Nat := mask32 ((x >>> n) ||| (x <<< (32 - n)))

def add32 (a b : Nat) : Nat := (a + b) % 4294967296

def smallSigma0 (x : Nat) : Nat := (rotr32 7 x) ^^^ (rotr32 18 x) ^^^ (x >>> 3)

def smallSigma1 (x : Nat) : Nat := (rotr32 17 x) ^^^ (rotr32 19 x) ^^^ (x >>> 10)

def bigSigma0 (x : Nat) : Nat := (rotr32 2 x) ^^^ (rotr32 13 x) ^^^ (rotr32 22 x)

def bigSigma1 (x : Nat) : Nat := (rotr32 6 x) ^^^ (rotr32 11 x) ^^^ (rotr32 25 x)

def chFn (x y z : Nat) : Nat := (x &&& y) ^^^ ((x ^^^ 4294967295) &&& z)

def majFn (x y z : Nat) : Nat := (x &&& y) ^^^ (x &&& z) ^^^ (y &&& z)

def sha256K : List Nat :=
  [1116352408, 1899447441, 3049323471, 3921009573,
   961987163, 1508970993, 2453635748, 2870763221,
   3624381080, 310598401, 607225278, 1426881987,
   1925078388, 2162078206, 2614888103, 3248222580,
   3835390401, 4022224774, 264347078, 604807628,
   770255983, 1249150122, 1555081692, 1996064986,
   2554220882, 2821834349, 2952996808, 3210313671,
   3336571891, 3584528711, 113926993, 338241895,
   666307205, 773529912, 1294757372, 1396182291,
   1695183700, 1986661051, 2177026350, 2456956037,
   2730485921, 2820302411, 3259730800, 3345764771,
   3516065817, 3600352804, 4094571909, 275423344,
   430227734, 506948616, 659060556, 883997877,
   958139571, 1322822218, 1537002063, 1747873779,
   1955562222, 2024104815, 2227730452, 2361852424,
   2428436474, 2756734187, 3204031479, 3329325298]

def sha256H0 : List Nat :=
  [1779033703, 3144134277, 1013904242, 2773480762,
   1359893119, 2600822924, 528734635, 1541459225]

def be64 (n : Nat) : List Nat :=
  [(n >>> 56) % 256, (n >>> 48) % 256, (n >>> 40) % 256, (n >>> 32) % 256,
   (n >>> 24) % 256, (n >>> 16) % 256, (n >>> 8) % 256, n % 256]

def be32 (n : Nat) : List Nat :=
  [(n >>> 24) % 256, (n >>> 16) % 256, (n >>> 8) % 256, n % 256]

/-- SHA-256 padding: `0x80`, zeros to 56 mod 64, then the bit length big-endian. -/
def padMessage (msg : List Nat) : List Nat :=
  let r := (msg.length + 1) % 64
  let zeros := (64 + 56 - r) % 64
  msg ++ 128 :: (List.replicate zeros 0 ++ be64 (8 * msg.length))

def chunksOfAux {α : Type} (n : Nat) : Nat → List α → List (List α)
  | _, [] => []
  | 0, _ :: _ => []
  | fuel + 1, a :: l => (a :: l).take n :: chunksOfAux n fuel ((a :: l).drop n)

/-- Split a list into consecutive chunks of `n` elements (last one may be short). -/
def chunksOf {α : Type} (n : Nat) (l : List α) : List (List α) :=
  if n = 0 then [] else chunksOfAux n l.length l

def word32 : List Nat → Nat
  | [b0, b1, b2, b3] => (b0 <<< 24) ||| (b1 <<< 16) ||| (b2 <<< 8) ||| b3
  | _ => 0

/-- Extend the 16 message words to 64 (accumulator kept reversed). -/
def extendSchedule : Nat → List Nat → List Nat
  | 0, acc => acc
  | n + 1, acc =>
    extendSchedule n
      (add32 (add32 (smallSigma1 (acc.getD 1 0)) (acc.getD 6 0))
        (add32 (smallSigma0 (acc.getD 14 0)) (acc.getD 15 0)) :: acc)

def messageSchedule (w16 : List Nat) : List Nat :=
  (extendSchedule 48 w16.reverse).reverse

def sha256Round (st : List Nat) (wk : Nat × Nat) : List Nat :=
  match st with
  | [a, b, c, d, e, f, g, h] =>
    let t1 := add32 h (add32 (bigSigma1 e) (add32 (chFn e f g) (add32 wk.1 wk.2)))
    let t2 := add32 (bigSigma0 a) (majFn a b c)
    [add32 t1 t2, a, b, c, add32 d t1, e, f, g]
  | _ => st

def processBlock (h : List Nat) (block : List Nat) : List Nat :=
  let w := messageSchedule ((chunksOf 4 block).map word32)
  let st := (w.zip sha256K).foldl sha256Round h
  (h.zip st).map fun p => add32 p.1 p.2

/-- The SHA-256 digest of a byte sequence (bytes as `Nat < 256`). -/
def sha256Bytes (msg : List Nat) : List Nat :=
  (((chunksOf 64 (padMessage msg)).foldl processBlock sha256H0).map be32).flatten

def hexDigit (n : Nat) : Char := "0123456789abcdef".data.getD n '0'

def hexByte (b : Nat) : List Char := [hexDigit (b / 16), hexDigit (b % 16)]

/-- `digest("hex")`: lower-case hex encoding of a byte sequence. -/
def hexOfBytes (bytes : List Nat) : String := String.mk ((bytes.map hexByte).flatten)

def utf8Char (c : Char) : List Nat :=
  let n := c.toNat
  if n < 128 then [n]
  else if n < 2048 then [192 ||| (n >>> 6), 128 ||| (n &&& 63)]
  else if n < 65536 then
    [224 ||| (n >>> 12), 128 ||| ((n >>> 6) &&& 63), 128 ||| (n &&& 63)]
  else
    [240 ||| (n >>> 18), 128 ||| ((n >>> 12) &&& 63), 128 ||| ((n >>> 6) &&& 63),
      128 ||| (n &&& 63)]

/-- The UTF-8 bytes `.update(string)` feeds the hash. -/
def utf8Bytes (s : String) : List Nat := (s.data.map utf8Char).flatten

/-- `createExtractJobId(docId, rawPdfPath)` (src/unnamed/part_006 lines 46-48):
the SHA-256 hex digest of `docId + "|" + rawPdfPath`, truncated to 24 hex
characters. -/
def createExtractJobId (docId rawPdfPath : String) : String :=
  String.mk ((hexOfBytes (sha256Bytes (utf8Bytes (docId ++ "|" ++ rawPdfPath)))).data.take 24)

/-! ## Async extraction orchestrator: `submitExtractJobs` (store half) -/

/-- The `ExtractJobRecord` that `submitExtractJobs` enqueues for a pending item
(`fileSha256` is not supplied, hence null). -/
def extractJobRecordOf (runId : String) (i : ExtractWorkItem) (submittedAt : String) :
    ExtractJobRecord :=
  { jobId := createExtractJobId i.docId i.rawLocation, runId := runId, docId := i.docId
    rawPdfPath := i.rawLocation, fileSha256 := none, attempt := i.attempt
    submittedAt := submittedAt }

/-- The per-item loop body of `submitExtractJobs`, restricted to its store
effect (the unconditional queue publish carries no store state). -/
def submitExtractItem (jobs : List ExtractJobRow) (runId : String)
    (i : ExtractWorkItem) (submittedAt : String) : List ExtractJobRow :=
  enqueueExtractJob jobs (extractJobRecordOf runId i submittedAt)

def submitItems (jobs : List ExtractJobRow) (runId : String)
    (items : List ExtractWorkItem) (submittedAt : String) : List ExtractJobRow :=
  items.foldl (fun js i => submitExtractItem js runId i submittedAt) jobs

/-- The store half of `submitExtractJobs` (src/unnamed/part_006 lines 50-81):
pull the pending extract candidates and enqueue one idempotent `ExtractJob` per
candidate; returns the new `extract_jobs` table and the `submitted` count. -/
def submitExtractJobsStore (docs : List DocumentRow) (jobs : List ExtractJobRow)
    (runId : String) (force : Bool) (limit maxExtractAttempts : Nat)
    (submittedAt : String) : List ExtractJobRow × Nat :=
  (submitItems jobs runId (listPendingExtracts docs limit force maxExtractAttempts)
      submittedAt,
    (listPendingExtracts docs limit force maxExtractAttempts).length)

/-! ## Filesystem model of one `downloadAttempt` (src/unnamed/part_000, 57-129) -/

/-- A file on disk: either a partially streamed `.part` file or a completely
written one. -/
inductive FileEntry where
  | partData (data : List Nat)
  | fullData (data : List Nat)
deriving Repr, DecidableEq

/-- The filesystem, as a map from paths to file contents. -/
def FS : Type := String → Option FileEntry

/-- Writing (or unlinking, with `none`) a path. -/
def fsSet (fs : FS) (p : String) (e : Option FileEntry) : FS :=
  fun q => if q = p then e else fs q

/-- How the body streaming of one attempt went: the full byte sequence on
success, or the bytes written so far plus the thrown error. -/
inductive StreamOutcome where
  | complete (data : List Nat)
  | failed (sofar : List Nat) (message : String)
deriving Repr, DecidableEq

/-- The HTTP response an attempt observed. -/
structure RespModel where
  statusCode : Nat
  hasBody : Bool
  resolvedUrl : Option String
  contentType : Option String
  etag : Option String
  lastModified : Option String
  stream : StreamOutcome
deriving Repr, DecidableEq

/-- `response.ok` of fetch: status in `[200, 300)`. -/
def respOk (code : Nat) : Bool :=
  decide (200 ≤ code) && decide (code < 300)

/-- What `downloadAttempt` returns on the non-throwing paths. -/
structure AttemptResultModel where
  statusCode : Nat
  resolvedUrl : Option String
  contentType : Option String
  sha256 : Option String
  bytes : Option Nat
  etag : Option String
  lastModified : Option String
deriving Repr, DecidableEq

/-- One `downloadAttempt`: a non-`ok` response returns its status code and
touches no file; a missing body reports `500`; otherwise the body is streamed
to `<target>.part` while hashed and counted, and on success the temp file is
renamed onto the final path — on a streaming failure the temp file is unlinked
(after an existence check) and the error rethrown. -/
def downloadAttemptFS (fs : FS) (outputPath : String) (resp : RespModel) :
    FS × Except String AttemptResultModel :=
  if respOk resp.statusCode = false then
    (fs, Except.ok { statusCode := resp.statusCode
                     resolvedUrl := resp.resolvedUrl
                     contentType := none
                     sha256 := none
                     bytes := none
                     etag := none
                     lastModified := none })
  else if resp.hasBody = false then
    (fs, Except.ok { statusCode := 500
                     resolvedUrl := resp.resolvedUrl
                     contentType := none
                     sha256 := none
                     bytes := none
                     etag := none
                     lastModified := none })
  else
    match resp.stream with
    | .complete data =>
      let fs1 := fsSet fs (outputPath ++ ".part") (some (.fullData data))
      let fs2 := fsSet (fsSet fs1 outputPath (some (.fullData data)))
        (outputPath ++ ".part") none
      (fs2, Except.ok { statusCode := resp.statusCode
                        resolvedUrl := resp.resolvedUrl
                        contentType := resp.contentType
                        sha256 := some (hexOfBytes (sha256Bytes data))
                        bytes := some data.length
                        etag := resp.etag
                        lastModified := resp.lastModified })
    | .failed sofar msg =>
      let fs1 := fsSet fs (outputPath ++ ".part") (some (.partData sofar))
      let fs2 :=
        if (fs1 (outputPath ++ ".part")).isSome then
          fsSet fs1 (outputPath ++ ".part") none
        else fs1
      (fs2, Except.error msg)

/-- A streaming failure after two bytes. -/
def respFailW : RespModel :=
  { statusCode := 200, hasBody := true, resolvedUrl := none, contentType := none
    etag := none, lastModified := none, stream := .failed [1, 2] "stream error" }

/-! ## Async result collection (`collectExtractResults`, src/unnamed/part_006) -/

/-- An `ExtractResultMessageV1` as a structured record (all optional fields
kept). -/
structure ExtractResultMessage where
  jobId : String
  docId : String
  status : String
  errorCode : Option String
  tablesLocation : Option String
  tableCount : Option Nat
  engine : Option String
  error : Option String
  durationMs : Option Nat
  finishedAt : String
deriving Repr, DecidableEq

/-- `mapResultMessageToExtractionResult` (src/unnamed/part_006 lines 121-142):
a `failed` message becomes `extracted_failed` with the error code folded into
the error string; anything else (`ok` or `no_tables`) becomes `extracted_ok`
with the message's `tablesLocation`. -/
def mapResultMessageToExtractionResult (m : ExtractResultMessage) (attempt : Nat) :
    ExtractionResult :=
  if m.status = "failed" then
    { docId := m.docId
      status := "extracted_failed"
      pageCount := none
      textLocation := none
      tablesLocation := none
      error := some (match m.errorCode with
        | some ec => ec ++ (match m.error with
          | some e => ": " ++ e
          | none => "")
        | none => m.error.getD "table_extraction_failed")
      attempt := attempt
      extractedAt := m.finishedAt }
  else
    { docId := m.docId
      status := "extracted_ok"
      pageCount := none
      textLocation := none
      tablesLocation := m.tablesLocation
      error := none
      attempt := attempt
      extractedAt := m.finishedAt }

/-- The state `collectExtractResults` threads: the two store tables, the acked
queue-message ids, and the summary counters. -/
structure CollectState where
  docs : List DocumentRow
  jobs : List ExtractJobRow
  acked : List String
  processed : Nat
  ok : Nat
  failed : Nat
deriving Repr, DecidableEq

/-- One iteration of the `collectExtractResults` message loop: an unknown
`jobId` is acked and discarded; otherwise the document's extraction outcome is
recorded, the `ExtractJob` is completed (`failed` only for a `failed` message),
the message is acked and the counters updated (`no_tables` and `ok` both count
as ok). -/
def collectStep (st : CollectState) (q : String × ExtractResultMessage) :
    CollectState :=
  match getExtractJob st.jobs q.2.jobId with
  | none => { st with acked := st.acked ++ [q.1] }
  | some job =>
    { docs := markExtractionResult st.docs
        (mapResultMessageToExtractionResult q.2 job.attempt)
      jobs := completeExtractJob st.jobs
        { jobId := q.2.jobId
          status := if q.2.status = "failed" then "failed" else "completed"
          finishedAt := q.2.finishedAt
          error := q.2.error
          resultRef := q.2.tablesLocation }
      acked := st.acked ++ [q.1]
      processed := st.processed + 1
      ok := if q.2.status = "failed" then st.ok else st.ok + 1
      failed := if q.2.status = "failed" then st.failed + 1 else st.failed }

/-- `collectExtractResults` (src/unnamed/part_006 lines 83-119) over an
already-consumed batch of `(queueMessageId, message)` pairs. -/
def collectExtractResults (docs : List DocumentRow) (jobs : List ExtractJobRow)
    (msgs : List (String × ExtractResultMessage)) : CollectState :=
  msgs.foldl collectStep
    { docs := docs, jobs := jobs, acked := [], processed := 0, ok := 0, failed := 0 }

/-- Replace a result message's status. -/
def setMsgStatus (m : ExtractResultMessage) (s : String) : ExtractResultMessage :=
  { m with status := s }

/-! ## Local queue adapter (`LocalSqliteQueueAdapter`, consume-and-lease) -/

/-- A JSON value, the shape of a stored queue payload (payloads are written by
`JSON.stringify`, so stored payloads parse and object keys are unique). -/
inductive JVal where
  | jnull
  | jbool (b : Bool)
  | jnum (n : Int)
  | jstr (s : String)
  | jarr (items : List JVal)
  | jobj (fields : List (String × JVal))
deriving Repr

/-- Property access `v.name` followed by a `typeof === "string"` check: the
field's string value when `v` is an object carrying a string there, else
nothing (`undefined`, or a non-string value). -/
def jStrField (v : JVal) (name : String) : Option String :=
  match v with
  | .jobj fields =>
    match fields.find? fun p => p.1 = name with
    | some p =>
      match p.2 with
      | .jstr s => some s
      | _ => none
    | none => none
  | _ => none

/-- `isString` of asyncMessages: a string of positive length. -/
def nonemptyStr : Option String → Bool
  | some s => decide (0 < s.length)
  | none => false

/-- `isExtractResultMessageV1` (src/src/extract/asyncMessages.ts lines 54-67). -/
def isExtractResultMessageV1 (v : JVal) : Bool :=
  decide (jStrField v "version" = some "v1")
    && decide (jStrField v "type" = some "tables.extract.result")
    && nonemptyStr (jStrField v "jobId")
    && nonemptyStr (jStrField v "docId")
    && (decide (jStrField v "status" = some "ok")
        || decide (jStrField v "status" = some "no_tables")
        || decide (jStrField v "status" = some "failed"))
    && nonemptyStr (jStrField v "finishedAt")

/-- A row of a queue table (`queue_requests` / `queue_results`). -/
structure QueueMessageRow where
  queueMessageId : String
  payload : JVal
  status : String
  createdAt : String
  leaseUntil : Option String
deriving Repr

/-- The batch `consumeAndLease` selects:
`WHERE status = 'pending' ORDER BY createdAt ASC LIMIT ?`. -/
def consumeSelected (table : List QueueMessageRow) (limit : Nat) :
    List QueueMessageRow :=
  (sortByKey (fun m => m.createdAt) (table.filter fun m => m.status = "pending")).take
    limit

/-- The lease transaction: every selected id transitions to `leased`. -/
def leaseRows (table : List QueueMessageRow) (ids : List String) :
    List QueueMessageRow :=
  table.map fun m =>
    if m.queueMessageId ∈ ids then { m with status := "leased" } else m

/-- The per-row decode step of `consumeAndLease`: a payload passing the guard is
appended to the returned batch; a failing payload's row is marked `failed`
(`UPDATE ... SET status = 'failed'`) and the message is skipped. -/
def quarantineStep (guard : JVal → Bool)
    (acc : List QueueMessageRow × List (String × JVal)) (row : QueueMessageRow) :
    List QueueMessageRow × List (String × JVal) :=
  if guard row.payload then (acc.1, acc.2 ++ [(row.queueMessageId, row.payload)])
  else
    (acc.1.map fun m =>
        if m.queueMessageId = row.queueMessageId then { m with status := "failed" }
        else m,
      acc.2)

/-- `LocalSqliteQueueAdapter.consumeAndLease` (lines 96-137): select up to
`limit` pending rows oldest first, lease them all in one transaction, then
decode each — quarantining malformed payloads as `failed`.  Returns the new
table and the delivered `(queueMessageId, payload)` batch. -/
def consumeAndLease (table : List QueueMessageRow) (limit : Nat)
    (guard : JVal → Bool) : List QueueMessageRow × List (String × JVal) :=
  (consumeSelected table limit).foldl (quarantineStep guard)
    (leaseRows table ((consumeSelected table limit).map fun m => m.queueMessageId), [])

/-- `consumeResults(limit)`: consume-and-lease under the result-message guard. -/
def consumeResults (table : List QueueMessageRow) (limit : Nat) :
    List QueueMessageRow × List (String × JVal) :=
  consumeAndLease table limit isExtractResultMessageV1

/-- The cumulative effect of the quarantine pass on one table row: `failed` when
some selected row with its id failed the guard. -/
def markFailedBy (guard : JVal → Bool) (sel : List QueueMessageRow)
    (m : QueueMessageRow) : QueueMessageRow :=
  if sel.any (fun r => !guard r.payload && decide (r.queueMessageId = m.queueMessageId))
    then { m with status := "failed" }
  else m

/-- A well-formed v1 result payload. -/
def validPayloadW : JVal :=
  .jobj [("version", .jstr "v1"), ("type", .jstr "tables.extract.result"),
    ("jobId", .jstr "j1"), ("docId", .jstr "d0"), ("status", .jstr "ok"),
    ("finishedAt", .jstr "2024-01-07T00:00:00.000Z")]

/-- A malformed payload (only a version field). -/
def badPayloadW : JVal :=
  .jobj [("version", .jstr "v1")]

/-- A pending well-formed queue message. -/
def goodRowW : QueueMessageRow :=
  { queueMessageId := "q1", payload := validPayloadW, status := "pending"
    createdAt := "2024-01-01T00:00:00.000Z", leaseUntil := none }

/-- A pending malformed queue message. -/
def badRowW : QueueMessageRow :=
  { queueMessageId := "q2", payload := badPayloadW, status := "pending"
    createdAt := "2024-01-02T00:00:00.000Z", leaseUntil := none }

/-- A `no_tables` result message for `queuedJob`'s document. -/
def noTablesMsg : ExtractResultMessage :=
  { jobId := "j1", docId := "d0", status := "no_tables", errorCode := none
    tablesLocation := none, tableCount := none, engine := none, error := none
    durationMs := none, finishedAt := "2024-01-07T00:00:00.000Z" }

/-! ## Helper lemmas about sorted `LIMIT` selections -/

theorem sortByKey_perm {α : Type} (k : α → String) (l : List α) :
    List.Perm (sortByKey k l) l :=
  List.perm_insertionSort _ l

theorem mem_sortByKey {α : Type} (k : α → String) (l : List α) (a : α) :
    a ∈ sortByKey k l ↔ a ∈ l :=
  (sortByKey_perm k l).mem_iff

theorem sortByKey_sorted {α : Type} (k : α → String) (l : List α) :
    (sortByKey k l).Pairwise (keyLe k) :=
  List.sorted_insertionSort _ l

theorem sortByKey_length {α : Type} (k : α → String) (l : List α) :
    (sortByKey k l).length = l.length :=
  (sortByKey_perm k l).length_eq

/-! ## Generic facts about `ORDER BY key LIMIT n` selections -/

theorem mem_of_mem_sorted_take {α : Type} (k : α → String) (l : List α) (n : Nat)
    (a : α) (ha : a ∈ (sortByKey k l).take n) : a ∈ l :=
  (mem_sortByKey k l a).1 (List.take_subset n (sortByKey k l) ha)

theorem sorted_take_pairwise {α : Type} (k : α → String) (l : List α) (n : Nat) :
    ((sortByKey k l).take n).Pairwise (keyLe k) :=
  (sortByKey_sorted k l).sublist (List.take_sublist n (sortByKey k l))

theorem sorted_take_length_le {α : Type} (k : α → String) (l : List α) (n : Nat) :
    ((sortByKey k l).take n).length ≤ n :=
  List.length_take_le n (sortByKey k l)

/-- A member of the bag either makes the `LIMIT n` cut, or the cut is full and
every selected element has a key at most its own. -/
theorem sorted_take_complete {α : Type} (k : α → String) (l : List α) (n : Nat)
    (a : α) (ha : a ∈ l) :
    a ∈ (sortByKey k l).take n ∨
      (((sortByKey k l).take n).length = n ∧
        ∀ b ∈ (sortByKey k l).take n, keyLe k b a) := by
  have hmem : a ∈ sortByKey k l := (mem_sortByKey k l a).2 ha
  have hsplit := List.take_append_drop n (sortByKey k l)
  have hp : (sortByKey k l).Pairwise (keyLe k) := sortByKey_sorted k l
  rw [← hsplit] at hmem hp
  rcases List.mem_append.1 hmem with h | h
  · exact Or.inl h
  · refine Or.inr ⟨?_, ?_⟩
    · have hne : (sortByKey k l).drop n ≠ [] := List.ne_nil_of_mem h
      have hlen : n < (sortByKey k l).length := by
        by_contra hc
        push_neg at hc
        rw [List.drop_eq_nil_of_le hc] at hne
        exact hne rfl
      rw [List.length_take]
      omega
    · intro b hb
      exact (List.pairwise_append.1 hp).2.2 b hb a h

/-- When the whole eligible bag fits under the `LIMIT`, every member is selected. -/
theorem mem_sorted_take_of_small {α : Type} (k : α → String) (l : List α) (n : Nat)
    (hsmall : l.length ≤ n) (a : α) (ha : a ∈ l) :
    a ∈ (sortByKey k l).take n := by
  rw [List.take_of_length_le (by rw [sortByKey_length]; exact hsmall)]
  exact (mem_sortByKey k l a).2 ha


/-- **C2, counterexample.** The claim reads the permanent-404 marker test as a
case-sensitive prefix of `HTTP 404`: under that reading the row `lower404Doc`
(status `download_failed`, error `"http 404"`, one attempt of three used) is
eligible, yet the code's `LIKE 'HTTP 404%'` filter — ASCII-case-insensitive by
SQLite default — excludes it, and `listPendingDownloads` returns nothing. -/
theorem c2_counterexample :
    specDownloadEligible 3 lower404Doc = true
      ∧ lower404Doc.attemptsDownload < 3
      ∧ downloadEligible 3 lower404Doc = false
      ∧ listPendingDownloads [lower404Doc] 10 false 3 = [] := by
  refine ⟨by decide, by decide, by decide, by decide⟩

/-- **C2 (amended).** Non-force `listPendingDownloads(limit, false, maxAttempts)`
selects exactly the documents whose `lastStatus` is null or `discovered`, or
`download_failed` with an error that is null or not an ASCII-case-insensitive
prefix match of `HTTP 404` (SQLite `LIKE`), or `downloaded_ok` with
`rawLocation` or `sha256` missing — each with `attemptsDownload < maxAttempts` —
ordered by `updatedAt` ascending and truncated to `limit`: every returned row is
such a stored row; an eligible stored row `d` is returned unless the batch is
already full (`limit` rows) of rows no newer than `d`; the batch is sorted by
`updatedAt` and holds at most `limit` rows. -/
theorem c2_pending_downloads_eligibility
    (docs : List DocumentRow) (limit maxAttempts : Nat) (d : DocumentRow)
    (hd : d ∈ docs) (he : downloadEligible maxAttempts d = true) :
    (∀ r ∈ pendingDownloadRows docs limit maxAttempts,
        r ∈ docs ∧ downloadEligible maxAttempts r = true)
      ∧ (d ∈ pendingDownloadRows docs limit maxAttempts
          ∨ ((pendingDownloadRows docs limit maxAttempts).length = limit
              ∧ ∀ r ∈ pendingDownloadRows docs limit maxAttempts,
                  strLeb r.updatedAt d.updatedAt = true))
      ∧ (pendingDownloadRows docs limit maxAttempts).Pairwise
          (fun a b => strLeb a.updatedAt b.updatedAt = true)
      ∧ (pendingDownloadRows docs limit maxAttempts).length ≤ limit
      ∧ listPendingDownloads docs limit false maxAttempts
          = (pendingDownloadRows docs limit maxAttempts).map downloadItemOfRow := by
  refine ⟨?_, ?_, ?_, ?_, rfl⟩
  · intro r hr
    have hr2 := mem_of_mem_sorted_take _ _ _ r hr
    exact ⟨(List.mem_filter.1 hr2).1, (List.mem_filter.1 hr2).2⟩
  · exact sorted_take_complete (fun x : DocumentRow => x.updatedAt)
      (docs.filter (downloadEligible maxAttempts)) limit d (List.mem_filter.2 ⟨hd, he⟩)
  · exact (sorted_take_pairwise (fun x : DocumentRow => x.updatedAt) (docs.filter (downloadEligible maxAttempts)) limit).imp fun h => h
  · exact sorted_take_length_le _ _ _

/-- Witness for `c2_pending_downloads_eligibility` at a concrete store. -/
theorem c2_pending_downloads_eligibility_witness :
    discoveredDoc ∈ pendingDownloadRows [discoveredDoc] 5 3 := by
  rcases c2_pending_downloads_eligibility [discoveredDoc] 5 3 discoveredDoc
      (by decide) (by decide) with ⟨-, h, -, -, -⟩
  rcases h with h | h
  · exact h
  · exact absurd h.1 (by decide)



/-- **C3.** A successfully downloaded document (`lastStatus = downloaded_ok` with
`sha256` and `rawLocation` set) is not returned by non-force
`listPendingDownloads`; after `markRemoteChanged` — which resets `lastStatus` to
`discovered` and records the synthetic `remote_changed` error — its updated row
reappears in the non-force selection (given spare attempts and a large enough
`limit`). -/
theorem c3_remote_change_reopens
    (docs : List DocumentRow) (limit maxAttempts : Nat) (d : DocumentRow)
    (checkedAt : String) (etag lastModified : Option String)
    (hd : d ∈ docs)
    (hstatus : d.lastStatus = some "downloaded_ok")
    (hsha : d.sha256.isSome = true) (hraw : d.rawLocation.isSome = true)
    (hatt : d.attemptsDownload < maxAttempts)
    (hcap : ((markRemoteChanged docs d.docId checkedAt etag lastModified).filter
        (downloadEligible maxAttempts)).length ≤ limit) :
    d ∉ pendingDownloadRows docs limit maxAttempts
      ∧ remoteChangedUpdate checkedAt etag lastModified d ∈
          pendingDownloadRows (markRemoteChanged docs d.docId checkedAt etag lastModified)
            limit maxAttempts
      ∧ (remoteChangedUpdate checkedAt etag lastModified d).lastStatus = some "discovered"
      ∧ (remoteChangedUpdate checkedAt etag lastModified d).error = some "remote_changed" := by
  rcases Option.isSome_iff_exists.1 hsha with ⟨sv, hsv⟩
  rcases Option.isSome_iff_exists.1 hraw with ⟨rv, hrv⟩
  have hne : downloadEligible maxAttempts d = false := by
    simp [downloadEligible, hstatus, hsv, hrv]
  refine ⟨?_, ?_, rfl, rfl⟩
  · intro hmem
    have h2 := mem_of_mem_sorted_take _ _ _ d hmem
    have h3 := (List.mem_filter.1 h2).2
    rw [hne] at h3
    cases h3
  · have hmem2 : remoteChangedUpdate checkedAt etag lastModified d ∈
        markRemoteChanged docs d.docId checkedAt etag lastModified := by
      have h0 := List.mem_map_of_mem
        (fun x => if x.docId = d.docId then remoteChangedUpdate checkedAt etag lastModified x else x)
        hd
      simp only [if_pos rfl] at h0
      exact h0
    have helig2 : downloadEligible maxAttempts
        (remoteChangedUpdate checkedAt etag lastModified d) = true := by
      simp [downloadEligible, remoteChangedUpdate, hatt]
    exact mem_sorted_take_of_small _ _ _ hcap _ (List.mem_filter.2 ⟨hmem2, helig2⟩)

/-- Witness for `c3_remote_change_reopens` at a concrete one-document store. -/
theorem c3_remote_change_reopens_witness :
    downloadedOkDoc ∉ pendingDownloadRows [downloadedOkDoc] 5 3
      ∧ remoteChangedUpdate "2024-02-01T00:00:00.000Z" none none downloadedOkDoc ∈
          pendingDownloadRows
            (markRemoteChanged [downloadedOkDoc] downloadedOkDoc.docId
              "2024-02-01T00:00:00.000Z" none none) 5 3 := by
  have h := c3_remote_change_reopens [downloadedOkDoc] 5 3 downloadedOkDoc
    "2024-02-01T00:00:00.000Z" none none (by decide) (by decide) (by decide) (by decide)
    (by decide) (by decide)
  exact ⟨h.1, h.2.1⟩


theorem countersMono_map (docs : List DocumentRow) (f : DocumentRow → DocumentRow)
    (h : ∀ d : DocumentRow, d.attemptsDownload ≤ (f d).attemptsDownload
      ∧ d.attemptsExtract ≤ (f d).attemptsExtract) :
    countersMono docs (docs.map f) := by
  intro i h1 h2
  simp only [List.get_eq_getElem, List.getElem_map]
  exact h _

theorem countersMono_append (docs l : List DocumentRow) :
    countersMono docs (docs ++ l) := by
  intro i h1 h2
  simp only [List.get_eq_getElem, List.getElem_append_left h1]
  exact ⟨le_refl _, le_refl _⟩

/-- **C4.** Every store operation that touches documents — `upsertDiscovered`,
`markDownloadResult`, `markExtractionResult`, `markRemoteUnchanged`,
`markRemoteChanged`, `markRawMissing` — leaves both attempt counters
non-decreasing at every table position; moreover `markDownloadResult` sets
`attemptsDownload` of the matching row to `result.attempt` when that exceeds the
stored value and to the stored value plus one otherwise, and
`markExtractionResult` does the same for `attemptsExtract`. -/
theorem c4_attempt_counters_monotone
    (docs : List DocumentRow) (item : DocumentDiscoveredItem) (nowS : String)
    (r : DownloadResult) (er : ExtractionResult) (docId checkedAt : String)
    (etag lastModified : Option String) :
    countersMono docs (upsertDiscovered docs item nowS)
      ∧ countersMono docs (markDownloadResult docs r)
      ∧ countersMono docs (markExtractionResult docs er)
      ∧ countersMono docs (markRemoteUnchanged docs docId checkedAt etag lastModified)
      ∧ countersMono docs (markRemoteChanged docs docId checkedAt etag lastModified)
      ∧ countersMono docs (markRawMissing docs docId checkedAt)
      ∧ (∀ i : Nat, ∀ h1 : i < docs.length, ∀ h2 : i < (markDownloadResult docs r).length,
          (docs.get ⟨i, h1⟩).docId = r.docId →
            ((markDownloadResult docs r).get ⟨i, h2⟩).attemptsDownload
              = if r.attempt > (docs.get ⟨i, h1⟩).attemptsDownload then r.attempt
                else (docs.get ⟨i, h1⟩).attemptsDownload + 1)
      ∧ (∀ i : Nat, ∀ h1 : i < docs.length, ∀ h2 : i < (markExtractionResult docs er).length,
          (docs.get ⟨i, h1⟩).docId = er.docId →
            ((markExtractionResult docs er).get ⟨i, h2⟩).attemptsExtract
              = if er.attempt > (docs.get ⟨i, h1⟩).attemptsExtract then er.attempt
                else (docs.get ⟨i, h1⟩).attemptsExtract + 1) := by
  refine ⟨?_, ?_, ?_, ?_, ?_, ?_, ?_, ?_⟩
  · unfold upsertDiscovered
    split
    · apply countersMono_map
      intro d
      by_cases h : d.docId = item.docId <;> simp [discoveredConflictUpdate, h]
    · exact countersMono_append docs _
  · apply countersMono_map
    intro d
    by_cases h : d.docId = r.docId <;> simp [h]
    split <;> omega
  · apply countersMono_map
    intro d
    by_cases h : d.docId = er.docId <;> simp [h]
    split <;> omega
  · apply countersMono_map
    intro d
    by_cases h : d.docId = docId <;> simp [h]
  · apply countersMono_map
    intro d
    by_cases h : d.docId = docId <;> simp [remoteChangedUpdate, h]
  · apply countersMono_map
    intro d
    by_cases h : d.docId = docId <;> simp [h]
  · intro i h1 h2 hmatch
    simp only [List.get_eq_getElem] at hmatch ⊢
    unfold markDownloadResult
    simp only [List.getElem_map]
    rw [if_pos hmatch]
  · intro i h1 h2 hmatch
    simp only [List.get_eq_getElem] at hmatch ⊢
    unfold markExtractionResult
    simp only [List.getElem_map]
    rw [if_pos hmatch]

/-- Witness for `c4_attempt_counters_monotone` at a concrete one-row store. -/
theorem c4_attempt_counters_monotone_witness :
    ((markDownloadResult [discoveredDoc] okDownloadResult).get ⟨0, by decide⟩).attemptsDownload
      = 1 := by
  have h := c4_attempt_counters_monotone [discoveredDoc] rediscoveredItem
    "2024-01-05T00:00:00.000Z" okDownloadResult okExtractionResult "d0"
    "2024-01-05T00:00:00.000Z" none none
  rw [h.2.2.2.2.2.2.1 0 (by decide) (by decide) (by decide)]
  decide

/-- **C8, counterexample.** The claim says an unset (`null`) `lastStatus` becomes
`discovered` on a conflicting upsert.  The `ON CONFLICT` clause never mentions
`lastStatus`, so re-upserting `baseDoc` (whose `lastStatus` is null) leaves it
null. -/
theorem c8_counterexample :
    baseDoc.docId = rediscoveredItem.docId
      ∧ baseDoc.lastStatus = none
      ∧ (upsertDiscovered [baseDoc] rediscoveredItem "2024-01-06T00:00:00.000Z").map
          (fun d => d.lastStatus) = [none] := by
  refine ⟨by decide, by decide, by decide⟩

/-- **C8 (amended).** On a conflicting `upsertDiscovered` only the mutable fields
`url`, `title`, `year`, `month`, `sourcePageUrl`, `lastSeenAt`, `updatedAt` are
refreshed; `firstSeenAt`, every download/extract progress field and `lastStatus`
are preserved verbatim (a null `lastStatus` stays null); rows with other
`docId`s are untouched and no row is added.  When the `docId` is absent, the new
row is appended with `lastStatus = 'discovered'`. -/
theorem c8_upsert_frame
    (docs : List DocumentRow) (item : DocumentDiscoveredItem) (nowS : String) :
    ((docs.any fun d => d.docId = item.docId) = true →
        (upsertDiscovered docs item nowS).length = docs.length
          ∧ ∀ i : Nat, ∀ h1 : i < docs.length,
              ∀ h2 : i < (upsertDiscovered docs item nowS).length,
              (((docs.get ⟨i, h1⟩).docId = item.docId →
                  upsertConflictFrame item nowS (docs.get ⟨i, h1⟩)
                    ((upsertDiscovered docs item nowS).get ⟨i, h2⟩))
                ∧ ((docs.get ⟨i, h1⟩).docId ≠ item.docId →
                  (upsertDiscovered docs item nowS).get ⟨i, h2⟩ = docs.get ⟨i, h1⟩)))
      ∧ ((docs.any fun d => d.docId = item.docId) = false →
          upsertDiscovered docs item nowS = docs ++ [discoveredRow item nowS]
            ∧ (discoveredRow item nowS).lastStatus = some "discovered") := by
  constructor
  · intro hexists
    unfold upsertDiscovered
    rw [if_pos hexists]
    refine ⟨List.length_map docs _, ?_⟩
    intro i h1 h2
    simp only [List.get_eq_getElem, List.getElem_map]
    constructor
    · intro hmatch
      rw [if_pos hmatch]
      simp [upsertConflictFrame, discoveredConflictUpdate]
    · intro hmatch
      rw [if_neg hmatch]
  · intro habsent
    unfold upsertDiscovered
    rw [if_neg (by simp [habsent])]
    exact ⟨rfl, rfl⟩

/-- Witness for `c8_upsert_frame`: the conflicting upsert over a null-status row
keeps `lastStatus` null. -/
theorem c8_upsert_frame_witness :
    ((upsertDiscovered [baseDoc] rediscoveredItem "2024-01-06T00:00:00.000Z").get
        ⟨0, by decide⟩).lastStatus = baseDoc.lastStatus := by
  have h := (c8_upsert_frame [baseDoc] rediscoveredItem "2024-01-06T00:00:00.000Z").1
    (by decide)
  exact ((h.2 0 (by decide) (by decide)).1 (by decide)).1


/-- **C1.** `claimPendingExtractJobs(limit, leaseUntil)` returns only jobs that
were `queued` or `leased` with a `leaseUntil` strictly earlier than the clock
reading; every returned job's row is set to `leased` with the new `leaseUntil`
(and such a row exists); a later claim call made while the new lease has not yet
expired never returns that job; once the lease has expired the row satisfies the
claimable predicate again; and the at-most-one-row-per-`jobId` discipline of the
table is preserved. -/
theorem c1_claim_lease_protocol
    (jobs : List ExtractJobRow) (limit : Nat) (leaseUntil now : String)
    (c : ClaimedExtractJob)
    (hc : c ∈ (claimPendingExtractJobs jobs limit leaseUntil now).2) :
    (∃ j ∈ jobs, jobClaimable now j = true ∧ claimedOfRow leaseUntil j = c)
      ∧ (∃ j2 ∈ (claimPendingExtractJobs jobs limit leaseUntil now).1,
          j2.jobId = c.jobId)
      ∧ (∀ j2 ∈ (claimPendingExtractJobs jobs limit leaseUntil now).1,
          j2.jobId = c.jobId →
            j2.status = "leased" ∧ j2.leaseUntil = some leaseUntil
              ∧ ∀ now2 : String, jobClaimable now2 j2 = strLtb leaseUntil now2)
      ∧ (∀ limit2 : Nat, ∀ lease2 now2 : String, strLtb leaseUntil now2 = false →
          c.jobId ∉
            ((claimPendingExtractJobs (claimPendingExtractJobs jobs limit leaseUntil now).1
                limit2 lease2 now2).2.map fun x => x.jobId))
      ∧ ((jobs.map fun j => j.jobId).Nodup →
          ((claimPendingExtractJobs jobs limit leaseUntil now).1.map fun j => j.jobId).Nodup)
    := by
  obtain ⟨j, hjS, hproj⟩ := List.mem_map.1 hc
  have hjf : j ∈ jobs.filter (jobClaimable now) := mem_of_mem_sorted_take _ _ _ j hjS
  have hjjobs : j ∈ jobs := (List.mem_filter.1 hjf).1
  have hjcl : jobClaimable now j = true := (List.mem_filter.1 hjf).2
  have hcid : c.jobId = j.jobId := by rw [← hproj]; rfl
  have hsel : j.jobId ∈ (claimSelectedRows jobs limit now).map fun x => x.jobId :=
    List.mem_map_of_mem _ hjS
  have hpost : ∀ j2 ∈ (claimPendingExtractJobs jobs limit leaseUntil now).1,
      j2.jobId = c.jobId → j2.status = "leased" ∧ j2.leaseUntil = some leaseUntil := by
    intro j2 hj2 hid
    simp only [claimPendingExtractJobs, leaseSelected] at hj2
    obtain ⟨j0, hj0, hup⟩ := List.mem_map.1 hj2
    by_cases hin : j0.jobId ∈ (claimSelectedRows jobs limit now).map fun x => x.jobId
    · rw [if_pos hin] at hup
      rw [← hup]
      exact ⟨rfl, rfl⟩
    · rw [if_neg hin] at hup
      rw [hup, hid, hcid] at hin
      exact absurd hsel hin
  have hclaim2 : ∀ j2 ∈ (claimPendingExtractJobs jobs limit leaseUntil now).1,
      j2.jobId = c.jobId →
        ∀ now2 : String, jobClaimable now2 j2 = strLtb leaseUntil now2 := by
    intro j2 hj2 hid now2
    obtain ⟨hst, hlu⟩ := hpost j2 hj2 hid
    simp [jobClaimable, hst, hlu]
  refine ⟨⟨j, hjjobs, hjcl, hproj⟩, ?_, fun j2 h2 hi =>
    ⟨(hpost j2 h2 hi).1, (hpost j2 h2 hi).2, hclaim2 j2 h2 hi⟩, ?_, ?_⟩
  · refine ⟨(if j.jobId ∈ (claimSelectedRows jobs limit now).map fun x => x.jobId then
        { j with status := "leased", leaseUntil := some leaseUntil } else j), ?_, ?_⟩
    · exact List.mem_map_of_mem _ hjjobs
    · rw [if_pos hsel, hcid]
  · intro limit2 lease2 now2 hnow2 hmemc
    rw [show (claimPendingExtractJobs (claimPendingExtractJobs jobs limit leaseUntil now).1
        limit2 lease2 now2).2
        = (claimSelectedRows (claimPendingExtractJobs jobs limit leaseUntil now).1
            limit2 now2).map (claimedOfRow lease2) from rfl, List.map_map] at hmemc
    obtain ⟨x, hxS2, hxid⟩ := List.mem_map.1 hmemc
    have hxf := mem_of_mem_sorted_take _ _ _ x hxS2
    have hxpost : x ∈ (claimPendingExtractJobs jobs limit leaseUntil now).1 :=
      (List.mem_filter.1 hxf).1
    have hxcl : jobClaimable now2 x = true := (List.mem_filter.1 hxf).2
    have hx2 := hclaim2 x hxpost hxid now2
    rw [hx2, hnow2] at hxcl
    cases hxcl
  · intro hnd
    have hids : ((claimPendingExtractJobs jobs limit leaseUntil now).1.map
        fun j2 => j2.jobId) = jobs.map fun j2 => j2.jobId := by
      simp only [claimPendingExtractJobs, leaseSelected, List.map_map]
      apply List.map_congr_left
      intro j0 hj0
      by_cases hin : j0.jobId ∈ (claimSelectedRows jobs limit now).map fun x => x.jobId <;>
        simp [Function.comp, hin]
    rw [hids]
    exact hnd

/-- Witness for `c1_claim_lease_protocol`: a second claim made half an hour into
a one-hour lease returns nothing for the claimed job. -/
theorem c1_claim_lease_protocol_witness :
    "j1" ∉
      ((claimPendingExtractJobs
          (claimPendingExtractJobs [queuedJob] 5 "2024-01-01T01:00:00.000Z"
              "2024-01-01T00:10:00.000Z").1
          5 "2024-01-01T02:00:00.000Z" "2024-01-01T00:30:00.000Z").2.map
        fun x => x.jobId) := by
  have h := c1_claim_lease_protocol [queuedJob] 5 "2024-01-01T01:00:00.000Z"
    "2024-01-01T00:10:00.000Z" (claimedOfRow "2024-01-01T01:00:00.000Z" queuedJob)
    (by decide)
  exact h.2.2.2.1 5 "2024-01-01T02:00:00.000Z" "2024-01-01T00:30:00.000Z" (by decide)


/-- **C5.** If the attempt the loop is currently on gets an HTTP 404 response
then — no matter how many attempts remain before `maxAttempts` — the loop
terminates at once with the terminal `download_failed` / `HTTP 404` result for
that attempt number, having issued exactly one network request and no backoff
sleep from that point on. -/
theorem c5_http404_short_circuits
    (oracle : Nat → AttemptOutcome) (nowAt : Nat → String) (maxAttempts : Nat)
    (item : DownloadWorkItem) (finalPath : String) (a : Nat) (f : DlFields)
    (ha : a ≤ maxAttempts) (h404 : oracle a = .response 404 f) :
    runItemAttemptLoop oracle nowAt maxAttempts item finalPath a =
      { result := result404 item f.resolvedUrl a (nowAt a)
        requests := 1, sleeps := [] } := by
  rw [runItemAttemptLoop]
  rw [dif_neg (by omega)]
  rw [h404]
  rfl

/-- Witness for `c5_http404_short_circuits`: a 404 on the very first of three
attempts. -/
theorem c5_http404_short_circuits_witness :
    runItemAttemptLoop (fun _ => AttemptOutcome.response 404
        { resolvedUrl := none, contentType := none, sha256 := none, bytes := none
          etag := none, lastModified := none })
      (fun _ => "2024-01-03T00:00:00.000Z") 3
      { docId := "d0", url := "https://example.org/d0.pdf", title := "doc", attempt := 1 }
      "/raw/d0.pdf" 1 =
      { result := result404
          { docId := "d0", url := "https://example.org/d0.pdf", title := "doc", attempt := 1 }
          none 1 "2024-01-03T00:00:00.000Z"
        requests := 1, sleeps := [] } :=
  c5_http404_short_circuits _ _ 3 _ "/raw/d0.pdf" 1 _ (by decide) rfl


/-! ## Lemmas for the idempotent submit (C7) -/

theorem any_false_filter_nil {α : Type} (p : α → Bool) (l : List α)
    (h : l.any p = false) : l.filter p = [] := by
  induction l with
  | nil => rfl
  | cons a l ih =>
    simp only [List.any_cons, Bool.or_eq_false_iff] at h
    simp [List.filter_cons, h.1, ih h.2]

theorem enqueue_any_preserve (jobs : List ExtractJobRow) (j : ExtractJobRecord)
    (s : String) (h : (jobs.any fun r => r.jobId = s) = true) :
    ((enqueueExtractJob jobs j).any fun r => r.jobId = s) = true := by
  unfold enqueueExtractJob
  split
  · exact h
  · rw [List.any_append]
    simp [h]

theorem enqueue_any_self (jobs : List ExtractJobRow) (j : ExtractJobRecord) :
    ((enqueueExtractJob jobs j).any fun r => r.jobId = j.jobId) = true := by
  unfold enqueueExtractJob
  split
  · assumption
  · rw [List.any_append]
    simp [queuedRowOf]

theorem enqueue_filter_other (jobs : List ExtractJobRow) (j : ExtractJobRecord)
    (s : String) (h : j.jobId ≠ s) :
    ((enqueueExtractJob jobs j).filter fun r => r.jobId = s)
      = jobs.filter fun r => r.jobId = s := by
  unfold enqueueExtractJob
  split
  · rfl
  · rw [List.filter_append]
    simp [queuedRowOf, h]

theorem submitItems_any_preserve (runId t : String) (items : List ExtractWorkItem)
    (jobs : List ExtractJobRow) (s : String)
    (h : (jobs.any fun r => r.jobId = s) = true) :
    ((submitItems jobs runId items t).any fun r => r.jobId = s) = true := by
  induction items generalizing jobs with
  | nil => exact h
  | cons i rest ih =>
    exact ih _ (enqueue_any_preserve _ _ _ h)

theorem submitItems_any_mem (runId t : String) (items : List ExtractWorkItem)
    (jobs : List ExtractJobRow) (i : ExtractWorkItem) (hi : i ∈ items) :
    ((submitItems jobs runId items t).any
        fun r => r.jobId = createExtractJobId i.docId i.rawLocation) = true := by
  induction items generalizing jobs with
  | nil => cases hi
  | cons i0 rest ih =>
    rcases List.mem_cons.1 hi with h | h
    · subst h
      exact submitItems_any_preserve runId t rest _ _ (enqueue_any_self _ _)
    · exact ih _ h

theorem submitItems_noop (runId t : String) (items : List ExtractWorkItem)
    (jobs : List ExtractJobRow)
    (h : ∀ i ∈ items,
      (jobs.any fun r => r.jobId = createExtractJobId i.docId i.rawLocation) = true) :
    submitItems jobs runId items t = jobs := by
  induction items generalizing jobs with
  | nil => rfl
  | cons i0 rest ih =>
    have h0 := h i0 (List.mem_cons_self i0 rest)
    have hstep : submitExtractItem jobs runId i0 t = jobs := by
      unfold submitExtractItem enqueueExtractJob
      simp only [extractJobRecordOf]
      rw [if_pos h0]
    show submitItems (submitExtractItem jobs runId i0 t) runId rest t = jobs
    rw [hstep]
    exact ih jobs fun i hi => h i (List.mem_cons_of_mem i0 hi)

theorem submitItems_filter_frozen (runId t : String) (items : List ExtractWorkItem)
    (jobs : List ExtractJobRow) (s : String)
    (h : ∀ i ∈ items, createExtractJobId i.docId i.rawLocation ≠ s) :
    ((submitItems jobs runId items t).filter fun r => r.jobId = s)
      = jobs.filter fun r => r.jobId = s := by
  induction items generalizing jobs with
  | nil => rfl
  | cons i0 rest ih =>
    show ((submitItems (submitExtractItem jobs runId i0 t) runId rest t).filter
        fun r => r.jobId = s) = _
    rw [ih _ fun i hi => h i (List.mem_cons_of_mem i0 hi)]
    exact enqueue_filter_other _ _ _ (h i0 (List.mem_cons_self i0 rest))

theorem submitItems_filter_single (runId t : String) (items : List ExtractWorkItem)
    (jobs : List ExtractJobRow) (item : ExtractWorkItem)
    (hfresh : (jobs.any
      fun r => r.jobId = createExtractJobId item.docId item.rawLocation) = false)
    (hsel : (items.filter
        fun i => createExtractJobId i.docId i.rawLocation
          = createExtractJobId item.docId item.rawLocation) = [item]) :
    ((submitItems jobs runId items t).filter
        fun r => r.jobId = createExtractJobId item.docId item.rawLocation)
      = [queuedRowOf (extractJobRecordOf runId item t)] := by
  induction items generalizing jobs with
  | nil => simp at hsel
  | cons i0 rest ih =>
    by_cases h0 : createExtractJobId i0.docId i0.rawLocation
        = createExtractJobId item.docId item.rawLocation
    · rw [List.filter_cons_of_pos (by simp [h0])] at hsel
      have hi0 : i0 = item := (List.cons_eq_cons.1 hsel).1
      have hrest : (rest.filter
          fun i => createExtractJobId i.docId i.rawLocation
            = createExtractJobId item.docId item.rawLocation) = [] :=
        (List.cons_eq_cons.1 hsel).2
      subst hi0
      have hstep : submitExtractItem jobs runId i0 t
          = jobs ++ [queuedRowOf (extractJobRecordOf runId i0 t)] := by
        unfold submitExtractItem enqueueExtractJob
        rw [if_neg]
        simp only [extractJobRecordOf]
        rw [hfresh]
        simp
      show ((submitItems (submitExtractItem jobs runId i0 t) runId rest t).filter
          fun r => r.jobId = createExtractJobId i0.docId i0.rawLocation) = _
      rw [submitItems_filter_frozen runId t rest _ _
        (by
          intro i hi
          have := List.filter_eq_nil_iff.1 hrest i hi
          simpa using this)]
      rw [hstep, List.filter_append]
      rw [any_false_filter_nil _ _ hfresh]
      simp [queuedRowOf, extractJobRecordOf]
    · rw [List.filter_cons_of_neg (by simp [h0])] at hsel
      have hfresh2 : ((submitExtractItem jobs runId i0 t).any
          fun r => r.jobId = createExtractJobId item.docId item.rawLocation) = false := by
        unfold submitExtractItem enqueueExtractJob
        split
        · exact hfresh
        · rw [List.any_append]
          simp [queuedRowOf, extractJobRecordOf, hfresh, h0]
      exact ih _ hfresh2 hsel


/-- **C7.** `createExtractJobId` is the truncated SHA-256 of the joined
`(docId, rawPdfPath)` pair, and submitting extract jobs is idempotent at the
store level: a second `submitExtractJobs` pass over the same store leaves the
`extract_jobs` table exactly as the first pass left it, and when the pair's
`jobId` was fresh, the first pass leaves exactly one row for that `jobId` —
the freshly queued record of the first submission. -/
theorem c7_submit_extract_jobs_idempotent
    (docs : List DocumentRow) (jobs : List ExtractJobRow) (runId1 runId2 : String)
    (force : Bool) (limit maxA : Nat) (t1 t2 : String) (item : ExtractWorkItem)
    (hfresh : (jobs.any
      fun r => r.jobId = createExtractJobId item.docId item.rawLocation) = false)
    (hsel : ((listPendingExtracts docs limit force maxA).filter
        fun i => createExtractJobId i.docId i.rawLocation
          = createExtractJobId item.docId item.rawLocation) = [item]) :
    (∀ d r : String, createExtractJobId d r
        = String.mk ((hexOfBytes (sha256Bytes (utf8Bytes (d ++ "|" ++ r)))).data.take 24))
      ∧ (submitExtractJobsStore docs
            (submitExtractJobsStore docs jobs runId1 force limit maxA t1).1
            runId2 force limit maxA t2).1
          = (submitExtractJobsStore docs jobs runId1 force limit maxA t1).1
      ∧ ((submitExtractJobsStore docs jobs runId1 force limit maxA t1).1.filter
            fun r => r.jobId = createExtractJobId item.docId item.rawLocation)
          = [queuedRowOf (extractJobRecordOf runId1 item t1)] := by
  refine ⟨fun d r => rfl, ?_, ?_⟩
  · show submitItems _ runId2 (listPendingExtracts docs limit force maxA) t2 = _
    apply submitItems_noop
    intro i hi
    exact submitItems_any_mem runId1 t1 _ jobs i hi
  · exact submitItems_filter_single runId1 t1 _ jobs item hfresh hsel

/-- Witness for `c7_submit_extract_jobs_idempotent` over a one-document store:
two submit passes leave one queued row for the pair's `jobId`. -/
theorem c7_submit_extract_jobs_idempotent_witness :
    (submitExtractJobsStore [downloadedOkDoc]
        (submitExtractJobsStore [downloadedOkDoc] [] "r1" false 10 3
            "2024-01-05T00:00:00.000Z").1
        "r2" false 10 3 "2024-01-06T00:00:00.000Z").1
      = (submitExtractJobsStore [downloadedOkDoc] [] "r1" false 10 3
          "2024-01-05T00:00:00.000Z").1
    ∧ ((submitExtractJobsStore [downloadedOkDoc] [] "r1" false 10 3
          "2024-01-05T00:00:00.000Z").1.filter
        fun r => r.jobId = createExtractJobId "d0" "/raw/d0.pdf")
      = [queuedRowOf (extractJobRecordOf "r1"
          { docId := "d0", rawLocation := "/raw/d0.pdf", attempt := 1 }
          "2024-01-05T00:00:00.000Z")] := by
  have h := c7_submit_extract_jobs_idempotent [downloadedOkDoc] [] "r1" "r2" false 10 3
    "2024-01-05T00:00:00.000Z" "2024-01-06T00:00:00.000Z"
    { docId := "d0", rawLocation := "/raw/d0.pdf", attempt := 1 }
    (by rfl)
    (by
      have hlist : listPendingExtracts [downloadedOkDoc] 10 false 3
          = [{ docId := "d0", rawLocation := "/raw/d0.pdf", attempt := 1 }] := by decide
      rw [hlist]
      simp)
  exact ⟨h.2.1, h.2.2⟩


/-- The temporary sibling path differs from the target path. -/
theorem append_part_ne (s : String) : s ++ ".part" ≠ s := by
  intro h
  have h2 := congrArg String.length h
  rw [String.length_append] at h2
  have h3 : (".part" : String).length = 5 := rfl
  omega

theorem fsSet_same (fs : FS) (p : String) (e : Option FileEntry) :
    fsSet fs p e p = e := by
  simp [fsSet]

theorem fsSet_other (fs : FS) (p : String) (e : Option FileEntry) (q : String)
    (h : ¬ q = p) : fsSet fs p e q = fs q := by
  simp [fsSet, h]

/-- **C6.** After one `downloadAttempt` — whether it returns or throws — no
`.part` file remains at the target location, and the file at the final path is
either absent or a completely written download; when the attempt throws, the
final path is untouched and the streaming error is the one rethrown. -/
theorem c6_no_partial_files
    (fs : FS) (outputPath : String) (resp : RespModel)
    (htemp : fs (outputPath ++ ".part") = none)
    (hfinal : ∀ d : List Nat, fs outputPath ≠ some (.partData d)) :
    ((downloadAttemptFS fs outputPath resp).1 (outputPath ++ ".part") = none)
      ∧ ((downloadAttemptFS fs outputPath resp).1 outputPath = none
          ∨ ∃ d : List Nat,
              (downloadAttemptFS fs outputPath resp).1 outputPath = some (.fullData d))
      ∧ (∀ msg : String, (downloadAttemptFS fs outputPath resp).2 = Except.error msg →
          (downloadAttemptFS fs outputPath resp).1 outputPath = fs outputPath)
      ∧ (respOk resp.statusCode = true → resp.hasBody = true →
          ∀ sofar : List Nat, ∀ msg : String, resp.stream = .failed sofar msg →
            (downloadAttemptFS fs outputPath resp).2 = Except.error msg) := by
  have hne : ¬ (outputPath = outputPath ++ ".part") :=
    fun h => append_part_ne outputPath h.symm
  have hbase : fs outputPath = none
      ∨ ∃ d : List Nat, fs outputPath = some (.fullData d) := by
    cases hv : fs outputPath with
    | none => exact Or.inl rfl
    | some e =>
      cases e with
      | partData d => exact absurd hv (hfinal d)
      | fullData d => exact Or.inr ⟨d, rfl⟩
  by_cases h1 : respOk resp.statusCode = false
  · have hd : downloadAttemptFS fs outputPath resp
        = (fs, Except.ok { statusCode := resp.statusCode
                           resolvedUrl := resp.resolvedUrl
                           contentType := none
                           sha256 := none
                           bytes := none
                           etag := none
                           lastModified := none }) := by
      unfold downloadAttemptFS
      rw [if_pos h1]
    rw [hd]
    refine ⟨htemp, hbase, fun msg hm => Except.noConfusion hm, fun hok => ?_⟩
    rw [hok] at h1
    cases h1
  · by_cases h2 : resp.hasBody = false
    · have hd : downloadAttemptFS fs outputPath resp
          = (fs, Except.ok { statusCode := 500
                             resolvedUrl := resp.resolvedUrl
                             contentType := none
                             sha256 := none
                             bytes := none
                             etag := none
                             lastModified := none }) := by
        unfold downloadAttemptFS
        rw [if_neg h1, if_pos h2]
      rw [hd]
      refine ⟨htemp, hbase, fun msg hm => Except.noConfusion hm, fun _ hbody => ?_⟩
      rw [hbody] at h2
      cases h2
    · rcases hst : resp.stream with data | ⟨sofar, msg⟩
      · have hd : downloadAttemptFS fs outputPath resp
            = (fsSet (fsSet (fsSet fs (outputPath ++ ".part") (some (.fullData data)))
                  outputPath (some (.fullData data))) (outputPath ++ ".part") none,
              Except.ok { statusCode := resp.statusCode
                          resolvedUrl := resp.resolvedUrl
                          contentType := resp.contentType
                          sha256 := some (hexOfBytes (sha256Bytes data))
                          bytes := some data.length
                          etag := resp.etag
                          lastModified := resp.lastModified }) := by
          unfold downloadAttemptFS
          rw [if_neg h1, if_neg h2, hst]
        have hd1 : (downloadAttemptFS fs outputPath resp).1
            = fsSet (fsSet (fsSet fs (outputPath ++ ".part") (some (.fullData data)))
                outputPath (some (.fullData data))) (outputPath ++ ".part") none := by
          rw [hd]
        refine ⟨?_, Or.inr ⟨data, ?_⟩, fun msg hm => ?_, fun _ _ sf m hsf => ?_⟩
        · rw [hd1, fsSet_same]
        · rw [hd1, fsSet_other _ _ _ _ hne, fsSet_same]
        · rw [hd] at hm
          exact Except.noConfusion hm
        · exact StreamOutcome.noConfusion hsf
      · have hd : downloadAttemptFS fs outputPath resp
            = (if ((fsSet fs (outputPath ++ ".part")
                  (some (.partData sofar))) (outputPath ++ ".part")).isSome = true then
                fsSet (fsSet fs (outputPath ++ ".part") (some (.partData sofar)))
                  (outputPath ++ ".part") none
              else fsSet fs (outputPath ++ ".part") (some (.partData sofar)),
              Except.error msg) := by
          unfold downloadAttemptFS
          rw [if_neg h1, if_neg h2, hst]
        have hsome : ((fsSet fs (outputPath ++ ".part")
            (some (.partData sofar))) (outputPath ++ ".part")).isSome = true := by
          rw [fsSet_same]
          rfl
        rw [if_pos hsome] at hd
        have hd1 : (downloadAttemptFS fs outputPath resp).1
            = fsSet (fsSet fs (outputPath ++ ".part") (some (.partData sofar)))
                (outputPath ++ ".part") none := by
          rw [hd]
        have hd2 : (downloadAttemptFS fs outputPath resp).2 = Except.error msg := by
          rw [hd]
        have hout : (fsSet (fsSet fs (outputPath ++ ".part") (some (.partData sofar)))
            (outputPath ++ ".part") none) outputPath = fs outputPath := by
          rw [fsSet_other _ _ _ _ hne, fsSet_other _ _ _ _ hne]
        refine ⟨?_, ?_, fun m hm => ?_, fun _ _ sf m hsf => ?_⟩
        · rw [hd1, fsSet_same]
        · rw [hd1, hout]
          exact hbase
        · rw [hd1, hout]
        · cases hsf
          exact hd2

/-- Witness for `c6_no_partial_files`: a failing stream over an empty disk
leaves no `.part` file and rethrows the stream error. -/
theorem c6_no_partial_files_witness :
    ((downloadAttemptFS (fun _ => none) "/raw/d0.pdf" respFailW).1
        ("/raw/d0.pdf" ++ ".part") = none)
      ∧ (downloadAttemptFS (fun _ => none) "/raw/d0.pdf" respFailW).2
          = Except.error "stream error" := by
  have h := c6_no_partial_files (fun _ => none) "/raw/d0.pdf" respFailW rfl
    (fun d hd => Option.noConfusion hd)
  exact ⟨h.1, h.2.2.2 rfl rfl [1, 2] "stream error" rfl⟩


theorem collectStep_no_tables_eq_ok (st : CollectState) (id : String)
    (m : ExtractResultMessage) :
    collectStep st (id, setMsgStatus m "no_tables")
      = collectStep st (id, setMsgStatus m "ok") := by
  simp only [collectStep, setMsgStatus]
  cases h : getExtractJob st.jobs m.jobId with
  | none => rfl
  | some job =>
    simp only [mapResultMessageToExtractionResult]
    have hne1 : ¬ ("no_tables" = "failed") := by decide
    have hne2 : ¬ ("ok" = "failed") := by decide
    simp only [if_neg hne1, if_neg hne2]

/-- **C10.** A result message with status `no_tables` is handled exactly like
one with status `ok`: swapping the two statuses anywhere in the consumed batch
leaves the entire collection outcome (documents, jobs, acks, counters)
unchanged; a known-job `no_tables` message marks the document `extracted_ok`
(copying `tablesLocation` when present), completes the `ExtractJob`, and counts
toward the `ok` total; only a `failed` message yields `extracted_failed` and a
`failed` job. -/
theorem c10_no_tables_counts_as_ok
    (docs : List DocumentRow) (jobs : List ExtractJobRow)
    (id : String) (m : ExtractResultMessage) (job : ExtractJobRow)
    (hjob : getExtractJob jobs m.jobId = some job) :
    (∀ pre post : List (String × ExtractResultMessage),
        collectExtractResults docs jobs (pre ++ (id, setMsgStatus m "no_tables") :: post)
          = collectExtractResults docs jobs (pre ++ (id, setMsgStatus m "ok") :: post))
      ∧ (m.status = "no_tables" →
          (collectExtractResults docs jobs [(id, m)]).processed = 1
            ∧ (collectExtractResults docs jobs [(id, m)]).ok = 1
            ∧ (collectExtractResults docs jobs [(id, m)]).failed = 0
            ∧ (collectExtractResults docs jobs [(id, m)]).acked = [id]
            ∧ (∀ i : Nat, ∀ h1 : i < docs.length,
                ∀ h2 : i < (collectExtractResults docs jobs [(id, m)]).docs.length,
                (docs.get ⟨i, h1⟩).docId = m.docId →
                  ((collectExtractResults docs jobs [(id, m)]).docs.get
                      ⟨i, h2⟩).lastStatus = some "extracted_ok"
                    ∧ ((collectExtractResults docs jobs [(id, m)]).docs.get
                        ⟨i, h2⟩).extractedTablesLocation
                      = coalesce m.tablesLocation
                          (docs.get ⟨i, h1⟩).extractedTablesLocation)
            ∧ (∀ j ∈ (collectExtractResults docs jobs [(id, m)]).jobs,
                j.jobId = m.jobId → j.status = "completed"))
      ∧ (m.status = "failed" →
          (collectExtractResults docs jobs [(id, m)]).ok = 0
            ∧ (collectExtractResults docs jobs [(id, m)]).failed = 1
            ∧ (∀ i : Nat, ∀ h1 : i < docs.length,
                ∀ h2 : i < (collectExtractResults docs jobs [(id, m)]).docs.length,
                (docs.get ⟨i, h1⟩).docId = m.docId →
                  ((collectExtractResults docs jobs [(id, m)]).docs.get
                      ⟨i, h2⟩).lastStatus = some "extracted_failed")
            ∧ (∀ j ∈ (collectExtractResults docs jobs [(id, m)]).jobs,
                j.jobId = m.jobId → j.status = "failed")) := by
  have hone : collectExtractResults docs jobs [(id, m)]
      = collectStep
          { docs := docs, jobs := jobs, acked := [], processed := 0, ok := 0, failed := 0 }
          (id, m) := rfl
  refine ⟨?_, ?_, ?_⟩
  · intro pre post
    unfold collectExtractResults
    rw [List.foldl_append, List.foldl_append, List.foldl_cons, List.foldl_cons,
      collectStep_no_tables_eq_ok]
  · intro hnt
    have hns : ¬ (m.status = "failed") := by rw [hnt]; decide
    have hstep : collectExtractResults docs jobs [(id, m)]
        = { docs := markExtractionResult docs
              (mapResultMessageToExtractionResult m job.attempt)
            jobs := completeExtractJob jobs
              { jobId := m.jobId
                status := "completed"
                finishedAt := m.finishedAt
                error := m.error
                resultRef := m.tablesLocation }
            acked := [id]
            processed := 1
            ok := 1
            failed := 0 } := by
      rw [hone]
      simp only [collectStep, hjob]
      simp [hns]
    rw [hstep]
    refine ⟨rfl, rfl, rfl, rfl, ?_, ?_⟩
    · intro i h1 h2 hmatch
      simp only [List.get_eq_getElem] at hmatch ⊢
      unfold markExtractionResult
      simp only [List.getElem_map, mapResultMessageToExtractionResult, if_neg hns]
      rw [if_pos hmatch]
      exact ⟨rfl, rfl⟩
    · intro j hj hid
      unfold completeExtractJob at hj
      obtain ⟨j0, hj0, hup⟩ := List.mem_map.1 hj
      by_cases hc : j0.jobId = m.jobId
      · rw [if_pos hc] at hup
        rw [← hup]
      · rw [if_neg hc] at hup
        rw [hup] at hc
        exact absurd hid hc
  · intro hf
    have hstep : collectExtractResults docs jobs [(id, m)]
        = { docs := markExtractionResult docs
              (mapResultMessageToExtractionResult m job.attempt)
            jobs := completeExtractJob jobs
              { jobId := m.jobId
                status := "failed"
                finishedAt := m.finishedAt
                error := m.error
                resultRef := m.tablesLocation }
            acked := [id]
            processed := 1
            ok := 0
            failed := 1 } := by
      rw [hone]
      simp only [collectStep, hjob]
      simp [hf]
    rw [hstep]
    refine ⟨rfl, rfl, ?_, ?_⟩
    · intro i h1 h2 hmatch
      simp only [List.get_eq_getElem] at hmatch ⊢
      unfold markExtractionResult
      simp only [List.getElem_map, mapResultMessageToExtractionResult, if_pos hf]
      rw [if_pos hmatch]
      rfl
    · intro j hj hid
      unfold completeExtractJob at hj
      obtain ⟨j0, hj0, hup⟩ := List.mem_map.1 hj
      by_cases hc : j0.jobId = m.jobId
      · rw [if_pos hc] at hup
        rw [← hup]
      · rw [if_neg hc] at hup
        rw [hup] at hc
        exact absurd hid hc

/-- Witness for `c10_no_tables_counts_as_ok` at a one-job store. -/
theorem c10_no_tables_counts_as_ok_witness :
    (collectExtractResults [downloadedOkDoc] [queuedJob] [("q1", noTablesMsg)]).ok = 1
      ∧ (collectExtractResults [downloadedOkDoc] [queuedJob]
          [("q1", noTablesMsg)]).failed = 0 := by
  have h := c10_no_tables_counts_as_ok [downloadedOkDoc] [queuedJob] "q1" noTablesMsg
    queuedJob (by rfl)
  have h2 := h.2.1 (by rfl)
  exact ⟨h2.2.1, h2.2.2.1⟩


/-! ## Lemmas for the queue consume pass (C9) -/

theorem markFailedBy_nil (guard : JVal → Bool) (m : QueueMessageRow) :
    markFailedBy guard [] m = m := rfl

theorem quarantine_foldl_spec (guard : JVal → Bool) :
    ∀ (sel : List QueueMessageRow) (tbl : List QueueMessageRow)
      (acc : List (String × JVal)),
    sel.foldl (quarantineStep guard) (tbl, acc)
      = (tbl.map (markFailedBy guard sel),
        acc ++ (sel.filter fun r => guard r.payload).map
          fun r => (r.queueMessageId, r.payload)) := by
  intro sel
  induction sel with
  | nil =>
    intro tbl acc
    simp only [List.foldl_nil, List.filter_nil, List.map_nil, List.append_nil]
    rw [List.map_congr_left fun m _ => markFailedBy_nil guard m]
    simp
  | cons r rest ih =>
    intro tbl acc
    simp only [List.foldl_cons, quarantineStep]
    by_cases hg : guard r.payload = true
    · rw [if_pos hg, ih]
      refine congrArg₂ Prod.mk ?_ ?_
      · apply List.map_congr_left
        intro m _
        simp [markFailedBy, List.any_cons, hg]
      · simp [List.filter_cons, hg, List.append_assoc]
    · have hg2 : guard r.payload = false := by
        revert hg
        cases guard r.payload <;> simp
      rw [if_neg hg, ih]
      refine congrArg₂ Prod.mk ?_ ?_
      · rw [List.map_map]
        apply List.map_congr_left
        intro m _
        show markFailedBy guard rest
            (if m.queueMessageId = r.queueMessageId then { m with status := "failed" }
              else m)
          = markFailedBy guard (r :: rest) m
        by_cases hid : m.queueMessageId = r.queueMessageId
        · rw [if_pos hid]
          have hbad : (!guard r.payload
              && decide (r.queueMessageId = m.queueMessageId)) = true := by
            simp [hg2, hid.symm]
          have hrhs : markFailedBy guard (r :: rest) m = { m with status := "failed" } := by
            unfold markFailedBy
            rw [if_pos]
            rw [List.any_cons, hbad]
            rfl
          rw [hrhs]
          unfold markFailedBy
          split <;> rfl
        · rw [if_neg hid]
          have hid2 : ¬ (r.queueMessageId = m.queueMessageId) := fun h => hid h.symm
          unfold markFailedBy
          rw [List.any_cons]
          simp [hid2]
      · simp [List.filter_cons, hg2]

/-- Closed form of the consume pass: the table is the lease pass followed by the
quarantine marking, and the batch is the guard-passing selection in order. -/
theorem consumeAndLease_eq (table : List QueueMessageRow) (limit : Nat)
    (guard : JVal → Bool) :
    consumeAndLease table limit guard
      = ((leaseRows table ((consumeSelected table limit).map fun m => m.queueMessageId)).map
            (markFailedBy guard (consumeSelected table limit)),
        ((consumeSelected table limit).filter fun r => guard r.payload).map
          fun r => (r.queueMessageId, r.payload)) := by
  unfold consumeAndLease
  rw [quarantine_foldl_spec]
  rw [List.nil_append]

theorem consume_ids_preserved (table : List QueueMessageRow) (limit : Nat)
    (guard : JVal → Bool) :
    (consumeAndLease table limit guard).1.map (fun m => m.queueMessageId)
      = table.map fun m => m.queueMessageId := by
  rw [consumeAndLease_eq]
  show ((leaseRows table _).map _).map _ = _
  unfold leaseRows
  rw [List.map_map, List.map_map]
  apply List.map_congr_left
  intro m _
  simp only [Function.comp]
  by_cases hin : m.queueMessageId ∈ (consumeSelected table limit).map
      fun m2 => m2.queueMessageId
  · rw [if_pos hin]
    unfold markFailedBy
    split <;> rfl
  · rw [if_neg hin]
    unfold markFailedBy
    split <;> rfl


theorem consumeResults_snd (tb : List QueueMessageRow) (lm : Nat) :
    (consumeResults tb lm).2
      = ((consumeSelected tb lm).filter fun r => isExtractResultMessageV1 r.payload).map
          fun r => (r.queueMessageId, r.payload) := by
  have h2 : consumeResults tb lm
      = ((leaseRows tb ((consumeSelected tb lm).map fun m => m.queueMessageId)).map
            (markFailedBy isExtractResultMessageV1 (consumeSelected tb lm)),
        ((consumeSelected tb lm).filter fun r => isExtractResultMessageV1 r.payload).map
          fun r => (r.queueMessageId, r.payload)) :=
    consumeAndLease_eq tb lm isExtractResultMessageV1
  rw [h2]

/-- **C9.** `consume(limit)` on the results queue transitions up to `limit`
pending messages — oldest `createdAt` first — to `leased` and returns their ids
and payloads; every selected message whose payload fails
`isExtractResultMessageV1` is instead marked `failed`, excluded from the
returned batch, retained in the table (no row deleted — ids preserved), and
never returned by a later `consume`. -/
theorem c9_consume_quarantines_malformed
    (table : List QueueMessageRow) (limit : Nat)
    (hnodup : (table.map fun m => m.queueMessageId).Nodup) :
    ((consumeResults table limit).2
        = ((consumeSelected table limit).filter
            fun r => isExtractResultMessageV1 r.payload).map
              fun r => (r.queueMessageId, r.payload))
      ∧ (∀ r ∈ consumeSelected table limit, r ∈ table ∧ r.status = "pending")
      ∧ (consumeSelected table limit).length ≤ limit
      ∧ (consumeSelected table limit).Pairwise
          (fun a b => strLeb a.createdAt b.createdAt = true)
      ∧ (consumeResults table limit).1.map (fun m => m.queueMessageId)
          = table.map (fun m => m.queueMessageId)
      ∧ (∀ r ∈ consumeSelected table limit, isExtractResultMessageV1 r.payload = true →
          ∀ m2 ∈ (consumeResults table limit).1,
            m2.queueMessageId = r.queueMessageId → m2.status = "leased")
      ∧ (∀ r ∈ consumeSelected table limit, isExtractResultMessageV1 r.payload = false →
          (∀ m2 ∈ (consumeResults table limit).1,
              m2.queueMessageId = r.queueMessageId → m2.status = "failed")
            ∧ r.queueMessageId ∉ (consumeResults table limit).2.map (fun p => p.1)
            ∧ ∀ limit2 : Nat,
                r.queueMessageId ∉
                  ((consumeResults (consumeResults table limit).1 limit2).2.map
                    fun p => p.1)) := by
  have hsel_mem : ∀ tb : List QueueMessageRow, ∀ lm : Nat,
      ∀ r ∈ consumeSelected tb lm, r ∈ tb ∧ r.status = "pending" := by
    intro tb lm r hr
    have h2 := mem_of_mem_sorted_take _ _ _ r hr
    have h3 := List.mem_filter.1 h2
    refine ⟨h3.1, ?_⟩
    have := h3.2
    simpa using this
  have heq2 : consumeResults table limit
      = ((leaseRows table ((consumeSelected table limit).map fun m => m.queueMessageId)).map
            (markFailedBy isExtractResultMessageV1 (consumeSelected table limit)),
        ((consumeSelected table limit).filter
            fun r => isExtractResultMessageV1 r.payload).map
          fun r => (r.queueMessageId, r.payload)) :=
    consumeAndLease_eq table limit isExtractResultMessageV1
  have hres1 : (consumeResults table limit).1
      = (leaseRows table ((consumeSelected table limit).map fun m => m.queueMessageId)).map
          (markFailedBy isExtractResultMessageV1 (consumeSelected table limit)) := by
    rw [heq2]
  have hres2 : (consumeResults table limit).2
      = ((consumeSelected table limit).filter
          fun r => isExtractResultMessageV1 r.payload).map
            fun r => (r.queueMessageId, r.payload) := by
    rw [heq2]
  have idMark : ∀ x : QueueMessageRow,
      (markFailedBy isExtractResultMessageV1 (consumeSelected table limit) x).queueMessageId
        = x.queueMessageId := by
    intro x
    unfold markFailedBy
    split <;> rfl
  -- decompose a row of the post-table
  have hdecomp : ∀ m2 ∈ (consumeResults table limit).1, ∃ m0 ∈ table,
      m2 = markFailedBy isExtractResultMessageV1 (consumeSelected table limit)
        (if m0.queueMessageId ∈ (consumeSelected table limit).map
            (fun m => m.queueMessageId) then { m0 with status := "leased" } else m0)
      ∧ m2.queueMessageId = m0.queueMessageId := by
    intro m2 hm2
    rw [hres1] at hm2
    obtain ⟨m1, hm1, hup1⟩ := List.mem_map.1 hm2
    obtain ⟨m0, hm0, hup0⟩ := List.mem_map.1 hm1
    refine ⟨m0, hm0, ?_, ?_⟩
    · rw [← hup1, ← hup0]
    · rw [← hup1, idMark, ← hup0]
      split <;> rfl
  refine ⟨hres2, hsel_mem table limit, sorted_take_length_le _ _ _,
    (sorted_take_pairwise (fun m : QueueMessageRow => m.createdAt) _ limit).imp
      fun h => h, ?_, ?_, ?_⟩
  · rw [hres1]
    unfold leaseRows
    rw [List.map_map, List.map_map]
    apply List.map_congr_left
    intro m _
    simp only [Function.comp]
    rw [idMark]
    split <;> rfl
  · intro r hr hguard m2 hm2 hid
    obtain ⟨m0, hm0, hsplit, hid0⟩ := hdecomp m2 hm2
    have hrt := (hsel_mem table limit r hr).1
    have hm0r : m0 = r :=
      List.inj_on_of_nodup_map hnodup hm0 hrt (by rw [← hid0, hid])
    subst hm0r
    have hin : m0.queueMessageId ∈ (consumeSelected table limit).map
        fun m => m.queueMessageId := List.mem_map_of_mem _ hr
    rw [if_pos hin] at hsplit
    have hany : ((consumeSelected table limit).any
        fun r2 => !isExtractResultMessageV1 r2.payload
          && decide (r2.queueMessageId
            = ({ m0 with status := "leased" } : QueueMessageRow).queueMessageId))
        = false := by
      cases hc : (consumeSelected table limit).any
          fun r2 => !isExtractResultMessageV1 r2.payload
            && decide (r2.queueMessageId
              = ({ m0 with status := "leased" } : QueueMessageRow).queueMessageId) with
      | false => rfl
      | true =>
        obtain ⟨r2, hr2, hb⟩ := List.any_eq_true.1 hc
        rw [Bool.and_eq_true] at hb
        obtain ⟨hb1, hb2⟩ := hb
        have hgr2 : isExtractResultMessageV1 r2.payload = false := by
          revert hb1
          cases isExtractResultMessageV1 r2.payload <;> simp
        have hidr2 : r2.queueMessageId = m0.queueMessageId := of_decide_eq_true hb2
        have hr2t := (hsel_mem table limit r2 hr2).1
        have : r2 = m0 := List.inj_on_of_nodup_map hnodup hr2t hm0 hidr2
        rw [this, hguard] at hgr2
        cases hgr2
    rw [hsplit]
    unfold markFailedBy
    rw [if_neg (by rw [hany]; exact fun hx => Bool.noConfusion hx)]
  · intro r hr hguard
    refine ⟨?_, ?_, ?_⟩
    · intro m2 hm2 hid
      obtain ⟨m0, hm0, hsplit, hid0⟩ := hdecomp m2 hm2
      have hany : ((consumeSelected table limit).any
          fun r2 => !isExtractResultMessageV1 r2.payload
            && decide (r2.queueMessageId
              = ((if m0.queueMessageId ∈ (consumeSelected table limit).map
                  (fun m => m.queueMessageId) then { m0 with status := "leased" }
                else m0) : QueueMessageRow).queueMessageId)) = true := by
        apply List.any_eq_true.2
        refine ⟨r, hr, ?_⟩
        rw [Bool.and_eq_true]
        constructor
        · rw [hguard]
          rfl
        · apply decide_eq_true
          have : ((if m0.queueMessageId ∈ (consumeSelected table limit).map
              (fun m => m.queueMessageId) then ({ m0 with status := "leased" }
                : QueueMessageRow) else m0)).queueMessageId = m0.queueMessageId := by
            split <;> rfl
          rw [this, ← hid0, hid]
      rw [hsplit]
      unfold markFailedBy
      rw [if_pos hany]
    · intro hmem
      rw [hres2, List.map_map] at hmem
      obtain ⟨r2, hr2, hidr2⟩ := List.mem_map.1 hmem
      have hr2f := List.mem_filter.1 hr2
      have hr2t := (hsel_mem table limit r2 hr2f.1).1
      have hrt := (hsel_mem table limit r hr).1
      have : r2 = r := List.inj_on_of_nodup_map hnodup hr2t hrt hidr2
      rw [this, hguard] at hr2f
      exact Bool.noConfusion hr2f.2
    · intro limit2 hmem
      have heqB := consumeResults_snd (consumeResults table limit).1 limit2
      rw [heqB, List.map_map] at hmem
      obtain ⟨r2, hr2, hidr2⟩ := List.mem_map.1 hmem
      have hr2f := List.mem_filter.1 hr2
      have hr2sel := hsel_mem (consumeResults table limit).1 limit2 r2 hr2f.1
      -- every row of the post-table with r's id is failed
      have hfailed : r2.status = "failed" := by
        obtain ⟨m0, hm0, hsplit, hid0⟩ := hdecomp r2 hr2sel.1
        have hany : ((consumeSelected table limit).any
            fun r3 => !isExtractResultMessageV1 r3.payload
              && decide (r3.queueMessageId
                = ((if m0.queueMessageId ∈ (consumeSelected table limit).map
                    (fun m => m.queueMessageId) then { m0 with status := "leased" }
                  else m0) : QueueMessageRow).queueMessageId)) = true := by
          apply List.any_eq_true.2
          refine ⟨r, hr, ?_⟩
          rw [Bool.and_eq_true]
          constructor
          · rw [hguard]
            rfl
          · apply decide_eq_true
            have hq : ((if m0.queueMessageId ∈ (consumeSelected table limit).map
                (fun m => m.queueMessageId) then ({ m0 with status := "leased" }
                  : QueueMessageRow) else m0)).queueMessageId = m0.queueMessageId := by
              split <;> rfl
            have hidr2b : r2.queueMessageId = r.queueMessageId := hidr2
            rw [hq, ← hid0]
            exact hidr2b.symm
        rw [hsplit]
        unfold markFailedBy
        rw [if_pos hany]
      rw [hfailed] at hr2sel
      exact absurd hr2sel.2 (by decide)


/-- Witness for `c9_consume_quarantines_malformed`: the malformed message is
never delivered and its row ends up `failed`. -/
theorem c9_consume_quarantines_malformed_witness :
    "q2" ∉ ((consumeResults [goodRowW, badRowW] 5).2.map fun p => p.1)
      ∧ ∀ m2 ∈ (consumeResults [goodRowW, badRowW] 5).1,
          m2.queueMessageId = "q2" → m2.status = "failed" := by
  have h := c9_consume_quarantines_malformed [goodRowW, badRowW] 5 (by decide)
  have hsel : badRowW ∈ consumeSelected [goodRowW, badRowW] 5 := by
    rw [show consumeSelected [goodRowW, badRowW] 5 = [goodRowW, badRowW] from rfl]
    exact List.mem_cons_of_mem _ (List.mem_cons_self _ _)
  have h7 := h.2.2.2.2.2.2 badRowW hsel (by rfl)
  exact ⟨h7.2.1, h7.1⟩

end Oagf
